import Mathlib

/-!
Verification development for the active-call voice agent server.

This file gives a shallow embedding, in Lean 4, of the parts of the
program that the checked properties talk about: the call-detail-record
(CDR) data model and its JSON serialization (src/callrecord/mod.rs), the
CDR file-name formatter, the CDR persistence manager and its bounded
receive loop, the HTTP and S3 persistence paths, the ambiance audio
processor (src/media/ambiance.rs), and the LLM dialogue handler
(src/playbook/handler.rs).

Conventions of the embedding:
* Rust machine integers are modelled as Nat / Int, with explicit
  reductions modulo 2^w at the points where the Rust code can wrap.
* Rust f32 values (only the ambiance levels) are modelled as exact
  rationals; the structure of every arithmetic expression is kept.
* Fallible Rust functions returning anyhow::Result are modelled with
  Except String.
* Types that the repository imports from outside the sources at hand
  (crate::call, crate::media core types, the voice_engine crate) are
  modelled from the specification document and are marked as such in
  their doc comments.
-/

namespace ActiveCallVerif

/-- Model of a serde_json::Value tree, used for the JSON image of a
CallRecord.  Objects are association lists in emission order; numbers
are carried as integers (every number this data model emits is an
unsigned integer, and at the Value level numbers round-trip as
identity). -/
inductive Json where
  | null : Json
  | bool (b : Bool) : Json
  | num (n : Int) : Json
  | str (s : String) : Json
  | arr (xs : List Json) : Json
  | obj (fields : List (String × Json)) : Json

/-- Modelled from the spec: the call type of a session is one of
WebSocket, WebRTC or SIP (crate::call::ActiveCallType, outside the
sources at hand).  Serialized with camelCase variant names. -/
inductive ActiveCallType where
  | webSocket : ActiveCallType
  | webrtc : ActiveCallType
  | sip : ActiveCallType
deriving DecidableEq, Repr

/-- Modelled from the spec: CallOption is the immutable per-call option
record of the external voice_engine crate; the CDR only carries it
through serialization, so it is represented here by the field list of
its JSON object image (a Rust struct always serializes to an object). -/
structure CallOption where
  payload : List (String × Json)

/-- A chrono DateTime<Utc> instant, represented by its civil UTC fields
(second precision; the data model never formats sub-second fields). -/
structure DateTimeUtc where
  year : Nat
  month : Nat
  day : Nat
  hour : Nat
  minute : Nat
  second : Nat
deriving DecidableEq, Repr

/-- A civil datetime whose fields are in calendar range (what every
chrono DateTime<Utc> guarantees). -/
def DateTimeUtc.Valid (dt : DateTimeUtc) : Prop :=
  dt.year ≤ 9999 ∧ 1 ≤ dt.month ∧ dt.month ≤ 12 ∧ 1 ≤ dt.day ∧ dt.day ≤ 31
    ∧ dt.hour ≤ 23 ∧ dt.minute ≤ 59 ∧ dt.second ≤ 59

instance (dt : DateTimeUtc) : Decidable dt.Valid := by
  unfold DateTimeUtc.Valid; infer_instance

/-- The ASCII digit character for d (d < 10). -/
def digitChar (d : Nat) : Char := Char.ofNat (48 + d)

/-- Two-digit zero-padded decimal rendering (chrono %m, %d, %H, %M, %S). -/
def pad2 (n : Nat) : String := String.mk [digitChar (n / 10 % 10), digitChar (n % 10)]

/-- Four-digit zero-padded decimal rendering (chrono %Y for years up to 9999). -/
def pad4 (n : Nat) : String :=
  String.mk [digitChar (n / 1000 % 10), digitChar (n / 100 % 10),
    digitChar (n / 10 % 10), digitChar (n % 10)]

/-- chrono format "%Y%m%d" on the civil UTC fields. -/
def DateTimeUtc.formatYmd (dt : DateTimeUtc) : String :=
  pad4 dt.year ++ pad2 dt.month ++ pad2 dt.day

/-- chrono format "%Y%m%d-%H%M%S" on the civil UTC fields. -/
def DateTimeUtc.formatYmdHms (dt : DateTimeUtc) : String :=
  pad4 dt.year ++ pad2 dt.month ++ pad2 dt.day ++ "-"
    ++ pad2 dt.hour ++ pad2 dt.minute ++ pad2 dt.second

/-- RFC 3339 rendering used by the chrono serde instance (to second
precision), e.g. "2024-06-01T12:34:56Z". -/
def DateTimeUtc.toRfc3339 (dt : DateTimeUtc) : String :=
  pad4 dt.year ++ "-" ++ pad2 dt.month ++ "-" ++ pad2 dt.day ++ "T"
    ++ pad2 dt.hour ++ ":" ++ pad2 dt.minute ++ ":" ++ pad2 dt.second ++ "Z"

/-- Rust str::to_lowercase restricted to ASCII (every string the CDR
code matches against is ASCII). -/
def asciiLowerChar (c : Char) : Char :=
  if 'A' ≤ c ∧ c ≤ 'Z' then Char.ofNat (c.toNat + 32) else c

/-- Rust str::to_lowercase, ASCII fragment. -/
def asciiLower (s : String) : String := String.mk (s.data.map asciiLowerChar)

/-- src/callrecord/mod.rs: enum CallRecordHangupReason. -/
inductive CallRecordHangupReason where
  | byCaller | byCallee | byRefer | bySystem | autohangup
  | noAnswer | noBalance | answerMachine | serverUnavailable
  | canceled | rejected | failed
  | other (s : String)
deriving DecidableEq, Repr

namespace CallRecordHangupReason

/-- src/callrecord/mod.rs: impl ToString for CallRecordHangupReason. -/
def toString : CallRecordHangupReason → String
  | byCaller => "caller"
  | byCallee => "callee"
  | byRefer => "refer"
  | bySystem => "system"
  | autohangup => "autohangup"
  | noAnswer => "noAnswer"
  | noBalance => "noBalance"
  | answerMachine => "answerMachine"
  | serverUnavailable => "serverUnavailable"
  | canceled => "canceled"
  | rejected => "rejected"
  | failed => "failed"
  | other s => s

/-- src/callrecord/mod.rs: impl FromStr for CallRecordHangupReason.
The scrutinee is the lowercased input, exactly as in the source, and
the four mixed-case arms are kept verbatim from the source (they can
never match a lowercased string). -/
def fromStr (s : String) : Except String CallRecordHangupReason :=
  match asciiLower s with
  | "caller" => .ok .byCaller
  | "callee" => .ok .byCallee
  | "refer" => .ok .byRefer
  | "system" => .ok .bySystem
  | "autohangup" => .ok .autohangup
  | "noAnswer" => .ok .noAnswer
  | "noBalance" => .ok .noBalance
  | "answerMachine" => .ok .answerMachine
  | "serverUnavailable" => .ok .serverUnavailable
  | "canceled" => .ok .canceled
  | "rejected" => .ok .rejected
  | "failed" => .ok .failed
  | _ => .ok (.other s)

end CallRecordHangupReason

/-- C9: CallRecordHangupReason::from_str is total (always returns Ok),
and it is not a left inverse of to_string: for NoAnswer, NoBalance,
AnswerMachine and ServerUnavailable, from_str(to_string r) yields
Other(to_string r) rather than r, because the input is lowercased
before being matched against mixed-case literals. -/
theorem hangup_reason_fromStr_total_not_left_inverse :
    (∀ s : String, (CallRecordHangupReason.fromStr s).isOk = true)
    ∧ CallRecordHangupReason.fromStr CallRecordHangupReason.noAnswer.toString
        = .ok (.other "noAnswer")
    ∧ CallRecordHangupReason.fromStr CallRecordHangupReason.noBalance.toString
        = .ok (.other "noBalance")
    ∧ CallRecordHangupReason.fromStr CallRecordHangupReason.answerMachine.toString
        = .ok (.other "answerMachine")
    ∧ CallRecordHangupReason.fromStr CallRecordHangupReason.serverUnavailable.toString
        = .ok (.other "serverUnavailable")
    ∧ CallRecordHangupReason.other "noAnswer" ≠ CallRecordHangupReason.noAnswer := by
  refine ⟨fun s => ?_, rfl, rfl, rfl, rfl, by decide⟩
  unfold CallRecordHangupReason.fromStr
  split <;> rfl

/-- Reads one ASCII digit. -/
def readDigit (c : Char) : Option Nat :=
  if 48 ≤ c.toNat ∧ c.toNat ≤ 57 then Option.some (c.toNat - 48) else Option.none

/-- Reads exactly two digits. -/
def read2 : List Char → Option (Nat × List Char)
  | c1 :: c2 :: rest =>
    match readDigit c1, readDigit c2 with
    | Option.some d1, Option.some d2 => Option.some (d1 * 10 + d2, rest)
    | _, _ => Option.none
  | _ => Option.none

/-- Reads exactly four digits. -/
def read4 : List Char → Option (Nat × List Char)
  | c1 :: c2 :: c3 :: c4 :: rest =>
    match readDigit c1, readDigit c2, readDigit c3, readDigit c4 with
    | Option.some d1, Option.some d2, Option.some d3, Option.some d4 =>
      Option.some (d1 * 1000 + d2 * 100 + d3 * 10 + d4, rest)
    | _, _, _, _ => Option.none
  | _ => Option.none

/-- Consumes an expected punctuation character. -/
def expectChar (ch : Char) : List Char → Option (List Char)
  | c :: rest => if c = ch then Option.some rest else Option.none
  | [] => Option.none

/-- The chrono RFC 3339 parser (the fragment the serde instance needs:
"YYYY-MM-DDTHH:MM:SSZ"). -/
def parseRfc3339 (s : String) : Option DateTimeUtc :=
  match read4 s.data with
  | Option.none => Option.none
  | Option.some (y, cs) =>
  match expectChar '-' cs with
  | Option.none => Option.none
  | Option.some cs =>
  match read2 cs with
  | Option.none => Option.none
  | Option.some (mo, cs) =>
  match expectChar '-' cs with
  | Option.none => Option.none
  | Option.some cs =>
  match read2 cs with
  | Option.none => Option.none
  | Option.some (d, cs) =>
  match expectChar 'T' cs with
  | Option.none => Option.none
  | Option.some cs =>
  match read2 cs with
  | Option.none => Option.none
  | Option.some (h, cs) =>
  match expectChar ':' cs with
  | Option.none => Option.none
  | Option.some cs =>
  match read2 cs with
  | Option.none => Option.none
  | Option.some (mi, cs) =>
  match expectChar ':' cs with
  | Option.none => Option.none
  | Option.some cs =>
  match read2 cs with
  | Option.none => Option.none
  | Option.some (sec, cs) =>
  match expectChar 'Z' cs with
  | Option.none => Option.none
  | Option.some cs =>
  match cs with
  | [] => Option.some ⟨y, mo, d, h, mi, sec⟩
  | _ => Option.none

/-- The chrono serde instance: a DateTime<Utc> serializes to its
RFC 3339 string. -/
def DateTimeUtc.toJson (dt : DateTimeUtc) : Json := .str dt.toRfc3339

/-- The chrono serde instance: deserialization parses the RFC 3339
string. -/
def DateTimeUtc.fromJson : Json → Option DateTimeUtc
  | .str s => parseRfc3339 s
  | _ => Option.none

theorem readDigit_digitChar (d : Nat) (h : d < 10) : readDigit (digitChar d) = Option.some d := by
  interval_cases d <;> decide

theorem read2_pad2 (n : Nat) (rest : List Char) (h : n < 100) :
    read2 ((pad2 n).data ++ rest) = Option.some (n, rest) := by
  show read2 (digitChar (n / 10 % 10) :: digitChar (n % 10) :: rest) = Option.some (n, rest)
  have h1 : n / 10 % 10 < 10 := Nat.mod_lt _ (by omega)
  have h2 : n % 10 < 10 := Nat.mod_lt _ (by omega)
  simp only [read2, readDigit_digitChar _ h1, readDigit_digitChar _ h2, Option.some.injEq,
    Prod.mk.injEq, and_true]
  omega

theorem read4_pad4 (n : Nat) (rest : List Char) (h : n < 10000) :
    read4 ((pad4 n).data ++ rest) = Option.some (n, rest) := by
  show read4 (digitChar (n / 1000 % 10) :: digitChar (n / 100 % 10)
      :: digitChar (n / 10 % 10) :: digitChar (n % 10) :: rest) = Option.some (n, rest)
  have h1 : n / 1000 % 10 < 10 := Nat.mod_lt _ (by omega)
  have h2 : n / 100 % 10 < 10 := Nat.mod_lt _ (by omega)
  have h3 : n / 10 % 10 < 10 := Nat.mod_lt _ (by omega)
  have h4 : n % 10 < 10 := Nat.mod_lt _ (by omega)
  simp only [read4, readDigit_digitChar _ h1, readDigit_digitChar _ h2,
    readDigit_digitChar _ h3, readDigit_digitChar _ h4, Option.some.injEq,
    Prod.mk.injEq, and_true]
  omega

theorem expectChar_cons (c : Char) (rest : List Char) :
    expectChar c (c :: rest) = Option.some rest := by
  simp [expectChar]

/-- Boolean form of DateTimeUtc.Valid. -/
def DateTimeUtc.validB (dt : DateTimeUtc) : Bool :=
  decide (dt.year ≤ 9999) && decide (1 ≤ dt.month) && decide (dt.month ≤ 12)
    && decide (1 ≤ dt.day) && decide (dt.day ≤ 31) && decide (dt.hour ≤ 23)
    && decide (dt.minute ≤ 59) && decide (dt.second ≤ 59)

theorem DateTimeUtc.parse_toRfc3339 (dt : DateTimeUtc) (h : dt.validB = true) :
    parseRfc3339 dt.toRfc3339 = Option.some dt := by
  simp only [DateTimeUtc.validB, Bool.and_eq_true, decide_eq_true_eq] at h
  obtain ⟨⟨⟨⟨⟨⟨⟨hy, _⟩, hmo⟩, _⟩, hd⟩, hh⟩, hmi⟩, hs⟩ := h
  have hdata : dt.toRfc3339.data
      = (pad4 dt.year).data ++ ('-' :: ((pad2 dt.month).data ++ ('-' ::
        ((pad2 dt.day).data ++ ('T' :: ((pad2 dt.hour).data ++ (':' ::
        ((pad2 dt.minute).data ++ (':' :: ((pad2 dt.second).data ++ ['Z'])))))))))) := rfl
  simp only [parseRfc3339, hdata,
    read4_pad4 dt.year _ (by omega),
    expectChar_cons,
    read2_pad2 dt.month _ (by omega),
    read2_pad2 dt.day _ (by omega),
    read2_pad2 dt.hour _ (by omega),
    read2_pad2 dt.minute _ (by omega),
    read2_pad2 dt.second _ (by omega)]

/-- src/callrecord/mod.rs: struct CallRecordMedia.  The extra map is an
association list of JSON values. -/
structure CallRecordMedia where
  trackId : String
  path : String
  size : Nat
  extra : Option (List (String × Json))

/-- src/callrecord/mod.rs: struct CallRecordHangupMessage. -/
structure CallRecordHangupMessage where
  code : Nat
  reason : Option String
  target : Option String

/-- serde for ActiveCallType: camelCase unit variant names. -/
def ActiveCallType.toJson : ActiveCallType → Json
  | .webSocket => .str "webSocket"
  | .webrtc => .str "webrtc"
  | .sip => .str "sip"

/-- serde for ActiveCallType: deserialization. -/
def ActiveCallType.fromJson : Json → Option ActiveCallType
  | .str "webSocket" => Option.some .webSocket
  | .str "webrtc" => Option.some .webrtc
  | .str "sip" => Option.some .sip
  | _ => Option.none

/-- serde for the external CallOption: its object image. -/
def CallOption.toJson (o : CallOption) : Json := .obj o.payload

/-- serde for the external CallOption: accepts any object. -/
def CallOption.fromJson : Json → Option CallOption
  | .obj fields => Option.some ⟨fields⟩
  | _ => Option.none

/-- serde for CallRecordHangupReason: camelCase variant names
(externally tagged, the Other newtype variant becomes a one-entry
object). -/
def CallRecordHangupReason.toJson : CallRecordHangupReason → Json
  | .byCaller => .str "byCaller"
  | .byCallee => .str "byCallee"
  | .byRefer => .str "byRefer"
  | .bySystem => .str "bySystem"
  | .autohangup => .str "autohangup"
  | .noAnswer => .str "noAnswer"
  | .noBalance => .str "noBalance"
  | .answerMachine => .str "answerMachine"
  | .serverUnavailable => .str "serverUnavailable"
  | .canceled => .str "canceled"
  | .rejected => .str "rejected"
  | .failed => .str "failed"
  | .other s => .obj [("other", .str s)]

/-- serde for CallRecordHangupReason: deserialization. -/
def CallRecordHangupReason.fromJson : Json → Option CallRecordHangupReason
  | .str "byCaller" => Option.some .byCaller
  | .str "byCallee" => Option.some .byCallee
  | .str "byRefer" => Option.some .byRefer
  | .str "bySystem" => Option.some .bySystem
  | .str "autohangup" => Option.some .autohangup
  | .str "noAnswer" => Option.some .noAnswer
  | .str "noBalance" => Option.some .noBalance
  | .str "answerMachine" => Option.some .answerMachine
  | .str "serverUnavailable" => Option.some .serverUnavailable
  | .str "canceled" => Option.some .canceled
  | .str "rejected" => Option.some .rejected
  | .str "failed" => Option.some .failed
  | .obj [("other", .str s)] => Option.some (.other s)
  | _ => Option.none

mutual
/-- src/callrecord/mod.rs: struct CallRecord.  The recursive
refer_callrecord: Option<Box<CallRecord>> field is represented by the
mutual OptCallRecord type (isomorphic to an option). -/
inductive CallRecord where
  | mk
    (callType : ActiveCallType)
    (option : Option CallOption)
    (callId : String)
    (startTime : DateTimeUtc)
    (ringTime : Option DateTimeUtc)
    (answerTime : Option DateTimeUtc)
    (endTime : DateTimeUtc)
    (caller : String)
    (callee : String)
    (statusCode : Nat)
    (hangupReason : Option CallRecordHangupReason)
    (hangupMessages : List CallRecordHangupMessage)
    (recorder : List CallRecordMedia)
    (extras : Option (List (String × Json)))
    (dumpEventFile : Option String)
    (referCallrecord : OptCallRecord)
/-- Option<Box<CallRecord>>, as a mutual inductive. -/
inductive OptCallRecord where
  | none
  | some (r : CallRecord)
end

/-- Field accessor: record.start_time. -/
def CallRecord.startTime : CallRecord → DateTimeUtc
  | .mk _ _ _ st _ _ _ _ _ _ _ _ _ _ _ _ => st

/-- Field accessor: record.call_id. -/
def CallRecord.callId : CallRecord → String
  | .mk _ _ cid _ _ _ _ _ _ _ _ _ _ _ _ _ => cid

/-- Field accessor: record.hangup_reason. -/
def CallRecord.hangupReason : CallRecord → Option CallRecordHangupReason
  | .mk _ _ _ _ _ _ _ _ _ _ hr _ _ _ _ _ => hr

/-- Field accessor: record.recorder. -/
def CallRecord.recorder : CallRecord → List CallRecordMedia
  | .mk _ _ _ _ _ _ _ _ _ _ _ _ rec _ _ _ => rec

/-- Key lookup in a JSON object's field list (first match, as the serde
struct deserializer sees the fields). -/
def lookupField : List (String × Json) → String → Option Json
  | [], _ => Option.none
  | (k, v) :: rest, key => if k = key then Option.some v else lookupField rest key

/-- serde skip_serializing_none: an Option field contributes its entry
only when present. -/
def optField (key : String) (v : Option Json) : List (String × Json) :=
  match v with
  | Option.none => []
  | Option.some j => [(key, j)]

/-- JSON string extractor. -/
def Json.asStr : Json → Option String
  | .str s => Option.some s
  | _ => Option.none

/-- JSON object extractor (the field list). -/
def Json.asObj : Json → Option (List (String × Json))
  | .obj fields => Option.some fields
  | _ => Option.none

/-- serde: a required field deserialized by p. -/
def reqParse (fields : List (String × Json)) (k : String) (p : Json → Option α) : Option α :=
  (lookupField fields k).bind p

/-- serde: an Option field; missing or null gives None, a present value
must parse. -/
def optParse (fields : List (String × Json)) (k : String) (p : Json → Option α) :
    Option (Option α) :=
  match lookupField fields k with
  | Option.none => Option.some Option.none
  | Option.some .null => Option.some Option.none
  | Option.some j => (p j).map Option.some

/-- serde: a required unsigned integer field with its width bound. -/
def reqNat (fields : List (String × Json)) (k : String) (bound : Nat) : Option Nat :=
  match lookupField fields k with
  | Option.some (.num n) => if 0 ≤ n ∧ n < bound then Option.some n.toNat else Option.none
  | _ => Option.none

/-- serde sequence deserialization: every element must parse. -/
def mapMOpt (p : Json → Option α) : List Json → Option (List α)
  | [] => Option.some []
  | j :: rest =>
    match p j with
    | Option.none => Option.none
    | Option.some a => (mapMOpt p rest).map (a :: ·)

/-- serde: a Vec field with serde(default): missing gives [], a present
value must be an array whose elements parse. -/
def listParse (fields : List (String × Json)) (k : String) (p : Json → Option α) :
    Option (List α) :=
  match lookupField fields k with
  | Option.none => Option.some []
  | Option.some (.arr xs) => mapMOpt p xs
  | Option.some _ => Option.none

/-- serde for CallRecordHangupMessage (camelCase keys, reason/target
skipped when None). -/
def CallRecordHangupMessage.toJson (m : CallRecordHangupMessage) : Json :=
  .obj (("code", .num m.code) ::
    (optField "reason" (m.reason.map Json.str) ++
     optField "target" (m.target.map Json.str)))

/-- serde for CallRecordHangupMessage: deserialization. -/
def CallRecordHangupMessage.fromJson (j : Json) : Option CallRecordHangupMessage :=
  match j with
  | .obj fields => do
    let code ← reqNat fields "code" 65536
    let reason ← optParse fields "reason" Json.asStr
    let target ← optParse fields "target" Json.asStr
    pure ⟨code, reason, target⟩
  | _ => Option.none

/-- serde for CallRecordMedia (camelCase keys, extra skipped when
None). -/
def CallRecordMedia.toJson (m : CallRecordMedia) : Json :=
  .obj (("trackId", .str m.trackId) ::
    ("path", .str m.path) ::
    ("size", .num m.size) ::
    optField "extra" (m.extra.map Json.obj))

/-- serde for CallRecordMedia: deserialization. -/
def CallRecordMedia.fromJson (j : Json) : Option CallRecordMedia :=
  match j with
  | .obj fields => do
    let trackId ← reqParse fields "trackId" Json.asStr
    let path ← reqParse fields "path" Json.asStr
    let size ← reqNat fields "size" (2 ^ 64)
    let extra ← optParse fields "extra" Json.asObj
    pure ⟨trackId, path, size, extra⟩
  | _ => Option.none

/-- The CallRecord JSON field list: camelCase keys in declaration
order; skip_serializing_none on every Option field; hangup_messages and
recorder skipped when empty.  The refer_callrecord contribution is
passed in as the final segment. -/
def mkFields (callType : ActiveCallType) (option : Option CallOption) (callId : String)
    (startTime : DateTimeUtc) (ringTime answerTime : Option DateTimeUtc)
    (endTime : DateTimeUtc) (caller callee : String) (statusCode : Nat)
    (hangupReason : Option CallRecordHangupReason)
    (hangupMessages : List CallRecordHangupMessage) (recorder : List CallRecordMedia)
    (extras : Option (List (String × Json))) (dumpEventFile : Option String)
    (referSeg : List (String × Json)) : List (String × Json) :=
  ("callType", callType.toJson) ::
    (optField "option" (option.map CallOption.toJson) ++
     ("callId", .str callId) ::
     ("startTime", startTime.toJson) ::
     (optField "ringTime" (ringTime.map DateTimeUtc.toJson) ++
      (optField "answerTime" (answerTime.map DateTimeUtc.toJson) ++
       ("endTime", endTime.toJson) ::
       ("caller", .str caller) ::
       ("callee", .str callee) ::
       ("statusCode", .num statusCode) ::
       (optField "hangupReason" (hangupReason.map CallRecordHangupReason.toJson) ++
        ((if hangupMessages.isEmpty then [] else
           [("hangupMessages", .arr (hangupMessages.map CallRecordHangupMessage.toJson))]) ++
         ((if recorder.isEmpty then [] else
            [("recorder", .arr (recorder.map CallRecordMedia.toJson))]) ++
          (optField "extras" (extras.map Json.obj) ++
           (optField "dumpEventFile" (dumpEventFile.map Json.str) ++
            referSeg))))))))

mutual
/-- serde Serialize for CallRecord (src/callrecord/mod.rs): the object
with the mkFields layout, the refer_callrecord field serialized
recursively. -/
def CallRecord.toJson : CallRecord → Json
  | .mk callType option callId startTime ringTime answerTime endTime caller callee
      statusCode hangupReason hangupMessages recorder extras dumpEventFile refer =>
    .obj (mkFields callType option callId startTime ringTime answerTime endTime caller
      callee statusCode hangupReason hangupMessages recorder extras dumpEventFile
      (OptCallRecord.toJsonField refer))
/-- The refer_callrecord field contribution. -/
def OptCallRecord.toJsonField : OptCallRecord → List (String × Json)
  | .none => []
  | .some r => [("referCallrecord", r.toJson)]
end

mutual
/-- Well-formedness of a record as a Rust value: civil datetimes and
machine-integer bounds (u16 status/code, u64 size), recursively. -/
def CallRecord.validB : CallRecord → Bool
  | .mk _ _ _ startTime ringTime answerTime endTime _ _ statusCode _ hangupMessages
      recorder _ _ refer =>
    startTime.validB && endTime.validB
      && (match ringTime with | Option.none => true | Option.some d => d.validB)
      && (match answerTime with | Option.none => true | Option.some d => d.validB)
      && decide (statusCode < 65536)
      && hangupMessages.all (fun m => decide (m.code < 65536))
      && recorder.all (fun m => decide (m.size < 2 ^ 64))
      && OptCallRecord.validB refer
/-- Well-formedness for the optional nested record. -/
def OptCallRecord.validB : OptCallRecord → Bool
  | .none => true
  | .some r => r.validB
end

/-- serde Deserialize for CallRecord, non-recursive part: every field
except refer_callrecord is looked up by its camelCase key; Option
fields default to None when missing or null; the two Vec fields default
to [].  Yields the record as a function of the refer field. -/
def parseBase (fields : List (String × Json)) : Option (OptCallRecord → CallRecord) := do
  let callType ← reqParse fields "callType" ActiveCallType.fromJson
  let option ← optParse fields "option" CallOption.fromJson
  let callId ← reqParse fields "callId" Json.asStr
  let startTime ← reqParse fields "startTime" DateTimeUtc.fromJson
  let ringTime ← optParse fields "ringTime" DateTimeUtc.fromJson
  let answerTime ← optParse fields "answerTime" DateTimeUtc.fromJson
  let endTime ← reqParse fields "endTime" DateTimeUtc.fromJson
  let caller ← reqParse fields "caller" Json.asStr
  let callee ← reqParse fields "callee" Json.asStr
  let statusCode ← reqNat fields "statusCode" 65536
  let hangupReason ← optParse fields "hangupReason" CallRecordHangupReason.fromJson
  let hangupMessages ← listParse fields "hangupMessages" CallRecordHangupMessage.fromJson
  let recorder ← listParse fields "recorder" CallRecordMedia.fromJson
  let extras ← optParse fields "extras" Json.asObj
  let dumpEventFile ← optParse fields "dumpEventFile" Json.asStr
  pure (fun refer => .mk callType option callId startTime ringTime answerTime endTime
    caller callee statusCode hangupReason hangupMessages recorder extras dumpEventFile refer)

mutual
/-- serde Deserialize for CallRecord: the non-recursive fields via
parseBase, the nested refer_callrecord recursively. -/
def CallRecord.fromJson : Json → Option CallRecord
  | .obj fields => do
    let mkRec ← parseBase fields
    let refer ← referFromFields fields
    pure (mkRec refer)
  | _ => Option.none
/-- Deserializes the refer_callrecord entry of a field list (missing or
null gives none). -/
def referFromFields : List (String × Json) → Option OptCallRecord
  | [] => Option.some .none
  | (k, v) :: rest =>
    if k = "referCallrecord" then
      match v with
      | .null => Option.some .none
      | j => (CallRecord.fromJson j).map .some
    else referFromFields rest
end

/-- The top-level keys of a JSON object. -/
def topKeys : Json → List String
  | .obj fields => fields.map Prod.fst
  | _ => []

/-- The camelCase field names of the CallRecord JSON object, in
declaration order. -/
def camelKeys : List String :=
  ["callType", "option", "callId", "startTime", "ringTime", "answerTime", "endTime",
   "caller", "callee", "statusCode", "hangupReason", "hangupMessages", "recorder",
   "extras", "dumpEventFile", "referCallrecord"]

/-- src/callrecord/mod.rs: fn default_cdr_file_name, i.e.
"{start_time:%Y%m%d-%H%M%S}_{call_id}.json". -/
def default_cdr_file_name (r : CallRecord) : String :=
  r.startTime.formatYmdHms ++ "_" ++ r.callId ++ ".json"

/-- Rust str::trim_end_matches('/'): drop every trailing slash. -/
def trimEndSlashes (s : String) : String :=
  String.mk ((s.data.reverse.dropWhile (fun c => c = '/')).reverse)

/-- src/callrecord/mod.rs: struct DefaultCallRecordFormatter. -/
structure DefaultCallRecordFormatter where
  root : String

/-- src/callrecord/mod.rs: DefaultCallRecordFormatter::default (root
"./config/cdr"). -/
def DefaultCallRecordFormatter.default : DefaultCallRecordFormatter :=
  { root := "./config/cdr" }

/-- src/callrecord/mod.rs: DefaultCallRecordFormatter::format_file_name.
The root is first stripped of trailing slashes; an empty trimmed root
yields the bare file name, otherwise
"{trimmed_root}/{%Y%m%d}/{file_name}". -/
def DefaultCallRecordFormatter.formatFileName
    (f : DefaultCallRecordFormatter) (r : CallRecord) : String :=
  let trimmedRoot := trimEndSlashes f.root
  let fileName := default_cdr_file_name r
  if trimmedRoot.isEmpty then fileName
  else trimmedRoot ++ "/" ++ r.startTime.formatYmd ++ "/" ++ fileName

/-- src/config.rs: enum S3Vendor. -/
inductive S3Vendor where
  | aliyun | tencent | minio | aws | gcp | azure | digitalOcean
deriving DecidableEq, Repr

/-- src/config.rs: enum CallRecordConfig (Local / S3 / Http variants);
header maps are association lists. -/
inductive CallRecordConfig where
  | localDir (root : String)
  | s3 (vendor : S3Vendor) (bucket region accessKey secretKey endpoint root : String)
      (withMedia : Option Bool) (keepMediaCopy : Option Bool)
  | http (url : String) (headers : Option (List (String × String)))
      (withMedia : Option Bool) (keepMediaCopy : Option Bool)

/-- src/config.rs: impl Default for CallRecordConfig (Local with root
"./config/cdr"). -/
def CallRecordConfig.default : CallRecordConfig :=
  .localDir "./config/cdr"

/-- A concrete record matching the example in the specification:
call_id "abc", start_time 2024-06-01T12:34:56Z. -/
def sampleRecord : CallRecord :=
  .mk .sip Option.none "abc" ⟨2024, 6, 1, 12, 34, 56⟩ Option.none Option.none
    ⟨2024, 6, 1, 12, 35, 56⟩ "alice" "bob" 200 Option.none [] [] Option.none
    Option.none .none

theorem lookupField_cons_eq (k : String) (v : Json) (rest : List (String × Json)) :
    lookupField ((k, v) :: rest) k = Option.some v := by
  simp [lookupField]

theorem lookupField_cons_ne {k key : String} (v : Json) (rest : List (String × Json))
    (h : ¬ k = key) : lookupField ((k, v) :: rest) key = lookupField rest key := by
  simp [lookupField, h]

theorem lookupField_optField_ne {k key : String} (v : Option Json)
    (rest : List (String × Json)) (h : ¬ k = key) :
    lookupField (optField k v ++ rest) key = lookupField rest key := by
  cases v <;> simp [optField, lookupField, h]

theorem lookupField_optField_eq (k : String) (v : Option Json) (rest : List (String × Json))
    (h : lookupField rest k = Option.none) :
    lookupField (optField k v ++ rest) k = v := by
  cases v <;> simp [optField, lookupField, h]

theorem lookupField_optField_some (k : String) (j : Json) (rest : List (String × Json)) :
    lookupField (optField k (Option.some j) ++ rest) k = Option.some j := by
  simp [optField, lookupField]

theorem lookupField_optField_none (k : String) (rest : List (String × Json)) :
    lookupField (optField k Option.none ++ rest) k = lookupField rest k := by
  simp [optField]

theorem lookupField_ifseg_ne {k key : String} (c : Bool) (v : Json)
    (rest : List (String × Json)) (h : ¬ k = key) :
    lookupField ((if c then [] else [(k, v)]) ++ rest) key = lookupField rest key := by
  cases c <;> simp [lookupField, h]

theorem lookupField_ifseg_eq (k : String) (c : Bool) (v : Json)
    (rest : List (String × Json)) (h : lookupField rest k = Option.none) :
    lookupField ((if c then [] else [(k, v)]) ++ rest) k
      = if c then Option.none else Option.some v := by
  cases c <;> simp [lookupField, h]

theorem lookupField_toJsonField_ne {key : String} (o : OptCallRecord)
    (h : ¬ "referCallrecord" = key) :
    lookupField (OptCallRecord.toJsonField o) key = Option.none := by
  cases o <;> simp [OptCallRecord.toJsonField, lookupField, h]

theorem lookupField_toJsonField_self (o : OptCallRecord) :
    lookupField (OptCallRecord.toJsonField o) "referCallrecord"
      = (match o with
         | OptCallRecord.none => Option.none
         | OptCallRecord.some r => Option.some r.toJson) := by
  cases o <;> simp [OptCallRecord.toJsonField, lookupField]

theorem activeCallType_roundtrip (ct : ActiveCallType) :
    ActiveCallType.fromJson ct.toJson = Option.some ct := by
  cases ct <;> rfl

theorem callOption_roundtrip (o : CallOption) :
    CallOption.fromJson o.toJson = Option.some o := rfl

theorem hangupReason_roundtrip (r : CallRecordHangupReason) :
    CallRecordHangupReason.fromJson r.toJson = Option.some r := by
  cases r <;> rfl

theorem dateTimeUtc_roundtrip (dt : DateTimeUtc) (h : dt.validB = true) :
    DateTimeUtc.fromJson dt.toJson = Option.some dt := by
  simp [DateTimeUtc.toJson, DateTimeUtc.fromJson, DateTimeUtc.parse_toRfc3339 dt h]

theorem mapMOpt_map (f : α → Json) (p : Json → Option α) (l : List α)
    (h : ∀ x ∈ l, p (f x) = Option.some x) : mapMOpt p (l.map f) = Option.some l := by
  induction l with
  | nil => rfl
  | cons a t ih =>
    simp only [List.map_cons, mapMOpt, h a (by simp)]
    rw [ih (fun x hx => h x (by simp [hx]))]
    rfl

theorem hangupMessage_roundtrip (m : CallRecordHangupMessage)
    (h : m.code < 65536) :
    CallRecordHangupMessage.fromJson m.toJson = Option.some m := by
  obtain ⟨code, reason, target⟩ := m
  replace h : code < 65536 := h
  have ltg : lookupField (optField "target" (target.map Json.str)) "target"
      = target.map Json.str := by
    cases target <;> simp [optField, lookupField]
  have lr : lookupField (optField "reason" (reason.map Json.str)
      ++ optField "target" (target.map Json.str)) "reason" = reason.map Json.str := by
    refine lookupField_optField_eq _ _ _ ?_
    cases target <;> simp [optField, lookupField]
  simp only [CallRecordHangupMessage.toJson, CallRecordHangupMessage.fromJson]
  rw [show reqNat (("code", Json.num code) :: (optField "reason" (reason.map Json.str)
      ++ optField "target" (target.map Json.str))) "code" 65536 = Option.some code by
    simp [reqNat, lookupField_cons_eq]; omega]
  rw [show optParse (("code", Json.num code) :: (optField "reason" (reason.map Json.str)
      ++ optField "target" (target.map Json.str))) "reason" Json.asStr
      = Option.some reason by
    rw [optParse.eq_def]
    rw [lookupField_cons_ne _ _ (by decide), lr]
    cases reason <;> simp [Json.asStr]]
  rw [show optParse (("code", Json.num code) :: (optField "reason" (reason.map Json.str)
      ++ optField "target" (target.map Json.str))) "target" Json.asStr
      = Option.some target by
    rw [optParse.eq_def]
    rw [lookupField_cons_ne _ _ (by decide), lookupField_optField_ne _ _ (by decide), ltg]
    cases target <;> simp [Json.asStr]]
  rfl

theorem mediaRecord_roundtrip (m : CallRecordMedia)
    (h : m.size < 2 ^ 64) :
    CallRecordMedia.fromJson m.toJson = Option.some m := by
  obtain ⟨trackId, path, size, extra⟩ := m
  replace h : size < 2 ^ 64 := h
  simp only [CallRecordMedia.toJson, CallRecordMedia.fromJson]
  rw [show reqParse (("trackId", Json.str trackId) :: ("path", Json.str path) ::
      ("size", Json.num size) :: optField "extra" (extra.map Json.obj)) "trackId"
      Json.asStr = Option.some trackId by
    simp [reqParse, lookupField_cons_eq, Json.asStr]]
  rw [show reqParse (("trackId", Json.str trackId) :: ("path", Json.str path) ::
      ("size", Json.num size) :: optField "extra" (extra.map Json.obj)) "path"
      Json.asStr = Option.some path by
    rw [reqParse.eq_def, lookupField_cons_ne _ _ (by decide), lookupField_cons_eq]
    simp [Json.asStr]]
  rw [show reqNat (("trackId", Json.str trackId) :: ("path", Json.str path) ::
      ("size", Json.num size) :: optField "extra" (extra.map Json.obj)) "size" (2 ^ 64)
      = Option.some size by
    rw [reqNat.eq_def, lookupField_cons_ne _ _ (by decide),
      lookupField_cons_ne _ _ (by decide), lookupField_cons_eq]
    simp only []
    rw [if_pos (by constructor <;> omega)]
    simp]
  rw [show optParse (("trackId", Json.str trackId) :: ("path", Json.str path) ::
      ("size", Json.num size) :: optField "extra" (extra.map Json.obj)) "extra"
      Json.asObj = Option.some extra by
    rw [optParse.eq_def, lookupField_cons_ne _ _ (by decide),
      lookupField_cons_ne _ _ (by decide), lookupField_cons_ne _ _ (by decide)]
    cases extra <;> simp [optField, lookupField, Json.asObj]]
  rfl

/-- C4 counterexample: the claim "for every non-empty root the result is
{root}/{YYYYMMDD}/{YYYYMMDD-HHMMSS}_{call_id}.json" fails for the
non-empty root "/": trailing slashes are trimmed first, which leaves an
empty root, so the bare file name is returned. -/
theorem format_file_name_claim_counterexample :
    "/" ≠ ""
    ∧ ({ root := "/" } : DefaultCallRecordFormatter).formatFileName sampleRecord
        = "20240601-123456_abc.json"
    ∧ ({ root := "/" } : DefaultCallRecordFormatter).formatFileName sampleRecord
        ≠ "/" ++ "/" ++ "20240601" ++ "/" ++ "20240601-123456_abc.json" := by
  refine ⟨by decide, rfl, by decide⟩

/-- C4 (amended): for every root that is still non-empty after trimming
its trailing slashes, format_file_name returns
{trimmed_root}/{YYYYMMDD}/{YYYYMMDD-HHMMSS}_{call_id}.json, both date
components taken from record.start_time; a root whose trimmed form is
empty yields the bare file name. -/
theorem format_file_name_amended (root : String) (r : CallRecord)
    (h : trimEndSlashes root ≠ "") :
    ({ root := root } : DefaultCallRecordFormatter).formatFileName r
      = trimEndSlashes root ++ "/"
        ++ (pad4 r.startTime.year ++ pad2 r.startTime.month ++ pad2 r.startTime.day)
        ++ "/"
        ++ (pad4 r.startTime.year ++ pad2 r.startTime.month ++ pad2 r.startTime.day
            ++ "-" ++ pad2 r.startTime.hour ++ pad2 r.startTime.minute
            ++ pad2 r.startTime.second ++ "_" ++ r.callId ++ ".json") := by
  have hne : (trimEndSlashes root).isEmpty = false := by
    rw [Bool.eq_false_iff]
    intro he
    exact h ((String.isEmpty_iff _).mp he)
  simp [DefaultCallRecordFormatter.formatFileName, hne, default_cdr_file_name,
    DateTimeUtc.formatYmd, DateTimeUtc.formatYmdHms]

/-- C4 witness: the amended statement applied to the specification's
example (root "/tmp/cdr", call_id "abc", start 2024-06-01T12:34:56Z)
produces exactly /tmp/cdr/20240601/20240601-123456_abc.json. -/
theorem format_file_name_amended_witness :
    trimEndSlashes "/tmp/cdr" ≠ ""
    ∧ ({ root := "/tmp/cdr" } : DefaultCallRecordFormatter).formatFileName sampleRecord
        = "/tmp/cdr/20240601/20240601-123456_abc.json" := by
  refine ⟨by decide, ?_⟩
  rw [format_file_name_amended "/tmp/cdr" sampleRecord (by decide)]
  rfl

theorem optParse_of_lookup_none (fields : List (String × Json)) (k : String)
    (p : Json → Option α) (hl : lookupField fields k = Option.none) :
    optParse fields k p = Option.some Option.none := by
  rw [optParse.eq_def, hl]

theorem optParse_of_lookup_some (fields : List (String × Json)) (k : String)
    (p : Json → Option α) (j : Json) (hl : lookupField fields k = Option.some j)
    (hnn : j ≠ Json.null) :
    optParse fields k p = (p j).map Option.some := by
  rw [optParse.eq_def, hl]
  cases j <;> first | rfl | exact absurd rfl hnn

theorem dateTimeUtc_toJson_ne_null (dt : DateTimeUtc) : dt.toJson ≠ Json.null := by
  simp [DateTimeUtc.toJson]

theorem callOption_toJson_ne_null (o : CallOption) : o.toJson ≠ Json.null := by
  simp [CallOption.toJson]

theorem hangupReason_toJson_ne_null (r : CallRecordHangupReason) :
    r.toJson ≠ Json.null := by
  cases r <;> simp [CallRecordHangupReason.toJson]

theorem parseBase_spec (ct : ActiveCallType) (opt : Option CallOption) (cid : String)
    (st : DateTimeUtc) (rt an : Option DateTimeUtc) (et : DateTimeUtc)
    (clr cle : String) (sc : Nat) (hr : Option CallRecordHangupReason)
    (hm : List CallRecordHangupMessage) (rec : List CallRecordMedia)
    (ext : Option (List (String × Json))) (dmp : Option String) (refer : OptCallRecord)
    (hst : st.validB = true) (het : et.validB = true)
    (hrt : ∀ d, rt = Option.some d → d.validB = true)
    (han : ∀ d, an = Option.some d → d.validB = true)
    (hsc : sc < 65536)
    (hhm : ∀ m ∈ hm, m.code < 65536)
    (hrec : ∀ m ∈ rec, m.size < 2 ^ 64) :
    parseBase (mkFields ct opt cid st rt an et clr cle sc hr hm rec ext dmp
        (OptCallRecord.toJsonField refer))
      = Option.some (fun refer2 => .mk ct opt cid st rt an et clr cle sc hr hm rec ext
          dmp refer2) := by
  set F := mkFields ct opt cid st rt an et clr cle sc hr hm rec ext dmp
    (OptCallRecord.toJsonField refer) with hF
  have A1 : lookupField F "callType" = Option.some ct.toJson := by
    simp [hF, mkFields, lookupField_cons_eq]
  have A2 : lookupField F "option" = opt.map CallOption.toJson := by
    cases opt <;>
      simp [hF, mkFields, lookupField_cons_ne, lookupField_cons_eq, lookupField_optField_ne,
        lookupField_ifseg_ne, lookupField_toJsonField_ne, lookupField_optField_some,
        lookupField_optField_none]
  have A3 : lookupField F "callId" = Option.some (Json.str cid) := by
    cases opt <;>
      simp [hF, mkFields, lookupField_cons_ne, lookupField_cons_eq, lookupField_optField_ne,
        lookupField_ifseg_ne, lookupField_toJsonField_ne, lookupField_optField_some,
        lookupField_optField_none]
  have A4 : lookupField F "startTime" = Option.some st.toJson := by
    simp [hF, mkFields, lookupField_cons_ne, lookupField_cons_eq, lookupField_optField_ne,
      lookupField_ifseg_ne, lookupField_toJsonField_ne, lookupField_optField_some,
      lookupField_optField_none]
  have A5 : lookupField F "ringTime" = rt.map DateTimeUtc.toJson := by
    cases rt <;>
      simp [hF, mkFields, lookupField_cons_ne, lookupField_cons_eq, lookupField_optField_ne,
        lookupField_ifseg_ne, lookupField_toJsonField_ne, lookupField_optField_some,
        lookupField_optField_none]
  have A6 : lookupField F "answerTime" = an.map DateTimeUtc.toJson := by
    cases an <;>
      simp [hF, mkFields, lookupField_cons_ne, lookupField_cons_eq, lookupField_optField_ne,
        lookupField_ifseg_ne, lookupField_toJsonField_ne, lookupField_optField_some,
        lookupField_optField_none]
  have A7 : lookupField F "endTime" = Option.some et.toJson := by
    simp [hF, mkFields, lookupField_cons_ne, lookupField_cons_eq, lookupField_optField_ne,
      lookupField_ifseg_ne, lookupField_toJsonField_ne, lookupField_optField_some,
      lookupField_optField_none]
  have A8 : lookupField F "caller" = Option.some (Json.str clr) := by
    simp [hF, mkFields, lookupField_cons_ne, lookupField_cons_eq, lookupField_optField_ne,
      lookupField_ifseg_ne, lookupField_toJsonField_ne, lookupField_optField_some,
      lookupField_optField_none]
  have A9 : lookupField F "callee" = Option.some (Json.str cle) := by
    simp [hF, mkFields, lookupField_cons_ne, lookupField_cons_eq, lookupField_optField_ne,
      lookupField_ifseg_ne, lookupField_toJsonField_ne, lookupField_optField_some,
      lookupField_optField_none]
  have A10 : lookupField F "statusCode" = Option.some (Json.num sc) := by
    simp [hF, mkFields, lookupField_cons_ne, lookupField_cons_eq, lookupField_optField_ne,
      lookupField_ifseg_ne, lookupField_toJsonField_ne, lookupField_optField_some,
      lookupField_optField_none]
  have A11 : lookupField F "hangupReason" = hr.map CallRecordHangupReason.toJson := by
    cases hr <;>
      simp [hF, mkFields, lookupField_cons_ne, lookupField_cons_eq, lookupField_optField_ne,
        lookupField_ifseg_ne, lookupField_toJsonField_ne, lookupField_optField_some,
        lookupField_optField_none]
  have A12 : lookupField F "hangupMessages"
      = (match hm with
         | [] => Option.none
         | _ :: _ => Option.some (Json.arr (hm.map CallRecordHangupMessage.toJson))) := by
    cases hm <;>
      simp [hF, mkFields, lookupField_cons_ne, lookupField_cons_eq, lookupField_optField_ne,
        lookupField_ifseg_ne, lookupField_toJsonField_ne, lookupField_optField_some,
        lookupField_optField_none, List.isEmpty, lookupField]
  have A13 : lookupField F "recorder"
      = (match rec with
         | [] => Option.none
         | _ :: _ => Option.some (Json.arr (rec.map CallRecordMedia.toJson))) := by
    cases rec <;>
      simp [hF, mkFields, lookupField_cons_ne, lookupField_cons_eq, lookupField_optField_ne,
        lookupField_ifseg_ne, lookupField_toJsonField_ne, lookupField_optField_some,
        lookupField_optField_none, List.isEmpty, lookupField]
  have A14 : lookupField F "extras" = ext.map Json.obj := by
    cases ext <;>
      simp [hF, mkFields, lookupField_cons_ne, lookupField_cons_eq, lookupField_optField_ne,
        lookupField_ifseg_ne, lookupField_toJsonField_ne, lookupField_optField_some,
        lookupField_optField_none]
  have A15 : lookupField F "dumpEventFile" = dmp.map Json.str := by
    cases dmp <;>
      simp [hF, mkFields, lookupField_cons_ne, lookupField_cons_eq, lookupField_optField_ne,
        lookupField_ifseg_ne, lookupField_toJsonField_ne, lookupField_optField_some,
        lookupField_optField_none]
  have B1 : reqParse F "callType" ActiveCallType.fromJson = Option.some ct := by
    rw [reqParse.eq_def, A1]
    simp [activeCallType_roundtrip]
  have B2 : optParse F "option" CallOption.fromJson = Option.some opt := by
    cases opt with
    | none => exact optParse_of_lookup_none _ _ _ (by simpa using A2)
    | some o =>
      rw [optParse_of_lookup_some _ _ _ _ (by simpa using A2) (callOption_toJson_ne_null o)]
      simp [callOption_roundtrip]
  have B3 : reqParse F "callId" Json.asStr = Option.some cid := by
    rw [reqParse.eq_def, A3]; rfl
  have B4 : reqParse F "startTime" DateTimeUtc.fromJson = Option.some st := by
    rw [reqParse.eq_def, A4]
    simp [dateTimeUtc_roundtrip st hst]
  have B5 : optParse F "ringTime" DateTimeUtc.fromJson = Option.some rt := by
    cases rt with
    | none => exact optParse_of_lookup_none _ _ _ (by simpa using A5)
    | some d =>
      rw [optParse_of_lookup_some _ _ _ _ (by simpa using A5) (dateTimeUtc_toJson_ne_null d)]
      simp [dateTimeUtc_roundtrip d (hrt d rfl)]
  have B6 : optParse F "answerTime" DateTimeUtc.fromJson = Option.some an := by
    cases an with
    | none => exact optParse_of_lookup_none _ _ _ (by simpa using A6)
    | some d =>
      rw [optParse_of_lookup_some _ _ _ _ (by simpa using A6) (dateTimeUtc_toJson_ne_null d)]
      simp [dateTimeUtc_roundtrip d (han d rfl)]
  have B7 : reqParse F "endTime" DateTimeUtc.fromJson = Option.some et := by
    rw [reqParse.eq_def, A7]
    simp [dateTimeUtc_roundtrip et het]
  have B8 : reqParse F "caller" Json.asStr = Option.some clr := by
    rw [reqParse.eq_def, A8]; rfl
  have B9 : reqParse F "callee" Json.asStr = Option.some cle := by
    rw [reqParse.eq_def, A9]; rfl
  have B10 : reqNat F "statusCode" 65536 = Option.some sc := by
    rw [reqNat.eq_def, A10]
    simp only []
    rw [if_pos (by constructor <;> omega)]
    simp
  have B11 : optParse F "hangupReason" CallRecordHangupReason.fromJson
      = Option.some hr := by
    cases hr with
    | none => exact optParse_of_lookup_none _ _ _ (by simpa using A11)
    | some rv =>
      rw [optParse_of_lookup_some _ _ _ _ (by simpa using A11)
        (hangupReason_toJson_ne_null rv)]
      simp [hangupReason_roundtrip]
  have B12 : listParse F "hangupMessages" CallRecordHangupMessage.fromJson
      = Option.some hm := by
    cases hm with
    | nil => rw [listParse.eq_def, A12]
    | cons a t =>
      rw [listParse.eq_def, A12]
      simp only []
      rw [mapMOpt_map _ _ _
        (fun m hmm => hangupMessage_roundtrip m (hhm m hmm))]
  have B13 : listParse F "recorder" CallRecordMedia.fromJson = Option.some rec := by
    cases rec with
    | nil => rw [listParse.eq_def, A13]
    | cons a t =>
      rw [listParse.eq_def, A13]
      simp only []
      rw [mapMOpt_map _ _ _
        (fun m hmm => mediaRecord_roundtrip m (hrec m hmm))]
  have B14 : optParse F "extras" Json.asObj = Option.some ext := by
    cases ext with
    | none => exact optParse_of_lookup_none _ _ _ (by simpa using A14)
    | some kvs =>
      rw [optParse_of_lookup_some _ _ _ _ (by simpa using A14) (by simp)]
      rfl
  have B15 : optParse F "dumpEventFile" Json.asStr = Option.some dmp := by
    cases dmp with
    | none => exact optParse_of_lookup_none _ _ _ (by simpa using A15)
    | some s =>
      rw [optParse_of_lookup_some _ _ _ _ (by simpa using A15) (by simp)]
      rfl
  simp only [parseBase, B1, B2, B3, B4, B5, B6, B7, B8, B9, B10, B11, B12, B13, B14, B15,
    Option.bind_eq_bind, Option.some_bind, Option.pure_def]

theorem referFromFields_cons_ne (k : String) (v : Json) (rest : List (String × Json))
    (h : ¬ k = "referCallrecord") :
    referFromFields ((k, v) :: rest) = referFromFields rest := by
  rw [referFromFields.eq_def]
  simp only [if_neg h]

theorem referFromFields_optField (k : String) (v : Option Json)
    (rest : List (String × Json)) (h : ¬ k = "referCallrecord") :
    referFromFields (optField k v ++ rest) = referFromFields rest := by
  cases v <;> simp [optField, referFromFields_cons_ne _ _ _ h]

theorem referFromFields_ifseg (k : String) (c : Bool) (v : Json)
    (rest : List (String × Json)) (h : ¬ k = "referCallrecord") :
    referFromFields ((if c then [] else [(k, v)]) ++ rest) = referFromFields rest := by
  cases c <;> simp [referFromFields_cons_ne _ _ _ h]

theorem referFromFields_toJsonField (refer : OptCallRecord)
    (hrec : ∀ r2, refer = OptCallRecord.some r2 →
      CallRecord.fromJson r2.toJson = Option.some r2) :
    referFromFields (OptCallRecord.toJsonField refer) = Option.some refer := by
  cases refer with
  | none => rfl
  | some r2 =>
    have h2 := hrec r2 rfl
    cases r2 with
    | mk ct opt cid st rt an et clr cle sc hr hm rec ext dmp refer2 =>
      simp only [CallRecord.toJson] at h2
      simp [referFromFields, OptCallRecord.toJsonField, CallRecord.toJson, h2]

theorem referFromFields_mkFields (ct : ActiveCallType) (opt : Option CallOption)
    (cid : String) (st : DateTimeUtc) (rt an : Option DateTimeUtc) (et : DateTimeUtc)
    (clr cle : String) (sc : Nat) (hr : Option CallRecordHangupReason)
    (hm : List CallRecordHangupMessage) (rec : List CallRecordMedia)
    (ext : Option (List (String × Json))) (dmp : Option String) (refer : OptCallRecord)
    (hrec : ∀ r2, refer = OptCallRecord.some r2 →
      CallRecord.fromJson r2.toJson = Option.some r2) :
    referFromFields (mkFields ct opt cid st rt an et clr cle sc hr hm rec ext dmp
      (OptCallRecord.toJsonField refer)) = Option.some refer := by
  rw [mkFields]
  rw [referFromFields_cons_ne _ _ _ (by decide)]
  rw [referFromFields_optField _ _ _ (by decide)]
  rw [referFromFields_cons_ne _ _ _ (by decide)]
  rw [referFromFields_cons_ne _ _ _ (by decide)]
  rw [referFromFields_optField _ _ _ (by decide)]
  rw [referFromFields_optField _ _ _ (by decide)]
  rw [referFromFields_cons_ne _ _ _ (by decide)]
  rw [referFromFields_cons_ne _ _ _ (by decide)]
  rw [referFromFields_cons_ne _ _ _ (by decide)]
  rw [referFromFields_cons_ne _ _ _ (by decide)]
  rw [referFromFields_optField _ _ _ (by decide)]
  rw [referFromFields_ifseg _ _ _ _ (by decide)]
  rw [referFromFields_ifseg _ _ _ _ (by decide)]
  rw [referFromFields_optField _ _ _ (by decide)]
  rw [referFromFields_optField _ _ _ (by decide)]
  exact referFromFields_toJsonField refer hrec

theorem fromJson_toJson_aux : ∀ (n : Nat) (r : CallRecord), sizeOf r ≤ n →
    r.validB = true → CallRecord.fromJson r.toJson = Option.some r := by
  intro n
  induction n with
  | zero =>
    intro r hsz hv
    exfalso
    cases r with
    | mk ct opt cid st rt an et clr cle sc hr hm rec ext dmp refer =>
      simp only [CallRecord.mk.sizeOf_spec] at hsz
      omega
  | succ n ih =>
    intro r hsz hv
    cases r with
    | mk ct opt cid st rt an et clr cle sc hr hm rec ext dmp refer =>
      simp only [CallRecord.validB, Bool.and_eq_true, decide_eq_true_eq,
        List.all_eq_true] at hv
      obtain ⟨⟨⟨⟨⟨⟨⟨hst, het⟩, hrtm⟩, hanm⟩, hsc⟩, hhm⟩, hrec⟩, href⟩ := hv
      have hrt : ∀ d, rt = Option.some d → d.validB = true := by
        intro d hd; rw [hd] at hrtm; exact hrtm
      have han : ∀ d, an = Option.some d → d.validB = true := by
        intro d hd; rw [hd] at hanm; exact hanm
      have hhm2 : ∀ m ∈ hm, m.code < 65536 := fun m hmm => hhm m hmm
      have hrec2 : ∀ m ∈ rec, m.size < 2 ^ 64 := fun m hmm => hrec m hmm
      have hrefIH : ∀ r2, refer = OptCallRecord.some r2 →
          CallRecord.fromJson r2.toJson = Option.some r2 := by
        intro r2 h2
        subst h2
        have hsz2 : sizeOf r2 ≤ n := by
          simp only [CallRecord.mk.sizeOf_spec, OptCallRecord.some.sizeOf_spec] at hsz
          omega
        have hv2 : r2.validB = true := by
          simpa [OptCallRecord.validB] using href
        exact ih r2 hsz2 hv2
      simp only [CallRecord.toJson]
      rw [CallRecord.fromJson]
      rw [parseBase_spec ct opt cid st rt an et clr cle sc hr hm rec ext dmp refer
        hst het hrt han hsc hhm2 hrec2]
      rw [referFromFields_mkFields ct opt cid st rt an et clr cle sc hr hm rec ext dmp
        refer hrefIH]
      rfl

theorem callRecord_roundtrip (r : CallRecord) (h : r.validB = true) :
    CallRecord.fromJson r.toJson = Option.some r :=
  fromJson_toJson_aux (sizeOf r) r le_rfl h

/-- The field list of a JSON object (empty for non-objects). -/
def Json.objFields : Json → List (String × Json)
  | .obj fields => fields
  | _ => []

theorem mem_keys_optField {k key : String} {v : Option Json}
    (h : k ∈ (optField key v).map Prod.fst) : k = key := by
  cases v with
  | none => simp [optField] at h
  | some j => simp [optField] at h; exact h

theorem mem_keys_ifseg {k key : String} (c : Bool) {v : Json}
    (h : k ∈ ((if c then [] else [(key, v)]).map Prod.fst)) : k = key := by
  cases c with
  | true => simp at h
  | false => simp at h; exact h

theorem mem_keys_toJsonField {k : String} {o : OptCallRecord}
    (h : k ∈ (OptCallRecord.toJsonField o).map Prod.fst) : k = "referCallrecord" := by
  cases o with
  | none => simp [OptCallRecord.toJsonField] at h
  | some r => simp [OptCallRecord.toJsonField] at h; exact h

theorem toJson_topKeys (r : CallRecord) : ∀ k ∈ topKeys r.toJson, k ∈ camelKeys := by
  cases r with
  | mk ct opt cid st rt an et clr cle sc hr hm rec ext dmp refer =>
    intro k hk
    simp only [CallRecord.toJson, topKeys, mkFields, List.map_cons, List.map_append,
      List.mem_cons, List.mem_append] at hk
    rcases hk with rfl | hk
    · decide
    rcases hk with hk | hk
    · rw [mem_keys_optField hk]; decide
    rcases hk with rfl | hk
    · decide
    rcases hk with rfl | hk
    · decide
    rcases hk with hk | hk
    · rw [mem_keys_optField hk]; decide
    rcases hk with hk | hk
    · rw [mem_keys_optField hk]; decide
    rcases hk with rfl | hk
    · decide
    rcases hk with rfl | hk
    · decide
    rcases hk with rfl | hk
    · decide
    rcases hk with rfl | hk
    · decide
    rcases hk with hk | hk
    · rw [mem_keys_optField hk]; decide
    rcases hk with hk | hk
    · rw [mem_keys_ifseg _ hk]; decide
    rcases hk with hk | hk
    · rw [mem_keys_ifseg _ hk]; decide
    rcases hk with hk | hk
    · rw [mem_keys_optField hk]; decide
    rcases hk with hk | hk
    · rw [mem_keys_optField hk]; decide
    · rw [mem_keys_toJsonField hk]; decide

theorem hangupReason_lookup (r : CallRecord) :
    lookupField (Json.objFields r.toJson) "hangupReason"
      = r.hangupReason.map CallRecordHangupReason.toJson := by
  cases r with
  | mk ct opt cid st rt an et clr cle sc hr hm rec ext dmp refer =>
    simp only [CallRecord.toJson, Json.objFields, CallRecord.hangupReason]
    cases hr <;>
      simp [mkFields, lookupField_cons_ne, lookupField_cons_eq, lookupField_optField_ne,
        lookupField_ifseg_ne, lookupField_toJsonField_ne, lookupField_optField_some,
        lookupField_optField_none]

/-- C5: serializing any (well-formed) CallRecord to JSON and
deserializing it back yields an equal record; the object's keys are the
camelCase field names; a hangup_reason of Other(s) appears in the JSON
as the externally tagged {"other": s} with the string s verbatim, and
survives the round-trip. -/
theorem call_record_json_roundtrip (r : CallRecord) (h : r.validB = true) :
    CallRecord.fromJson r.toJson = Option.some r
    ∧ (∀ k ∈ topKeys r.toJson, k ∈ camelKeys)
    ∧ (∀ s, r.hangupReason = Option.some (.other s) →
        lookupField (Json.objFields r.toJson) "hangupReason"
          = Option.some (.obj [("other", Json.str s)])) :=
  ⟨callRecord_roundtrip r h, toJson_topKeys r, fun s hs => by
    rw [hangupReason_lookup r, hs]; rfl⟩

/-- A second concrete record exercising every optional field, a nested
refer record, and an Other hangup reason. -/
def sampleRecord2 : CallRecord :=
  .mk .webrtc (Option.some ⟨[("codec", Json.str "pcmu")]⟩) "id2"
    ⟨2025, 12, 31, 23, 59, 59⟩ (Option.some ⟨2025, 12, 31, 23, 59, 58⟩) Option.none
    ⟨2026, 1, 1, 0, 0, 5⟩ "a" "b" 487 (Option.some (.other "noAnswer"))
    [⟨486, Option.some "busy", Option.none⟩]
    [⟨"t1", "/tmp/x.wav", 44, Option.none⟩]
    (Option.some [("k", Json.num 1)]) (Option.some "/tmp/x.jsonl")
    (.some sampleRecord)

/-- C5 witness: the round-trip theorem applied to a concrete record. -/
theorem call_record_json_roundtrip_witness :
    sampleRecord2.validB = true
    ∧ CallRecord.fromJson sampleRecord2.toJson = Option.some sampleRecord2
    ∧ lookupField (Json.objFields sampleRecord2.toJson) "hangupReason"
        = Option.some (.obj [("other", Json.str "noAnswer")]) :=
  ⟨by decide, (call_record_json_roundtrip sampleRecord2 (by decide)).1,
    (call_record_json_roundtrip sampleRecord2 (by decide)).2.2 "noAnswer" (by decide)⟩

/-- src/callrecord/mod.rs, CallRecordManager::save_with_http, effect on
the local file system (a list of existing paths): the upload is one
multipart POST; on a 2xx response the code deletes each local media
file IF keep_media_copy.unwrap_or(false) is TRUE (lines 577-584); on a
non-2xx response it returns Err and deletes nothing. -/
def saveWithHttpLocalFiles (keepMediaCopy : Option Bool) (record : CallRecord)
    (uploadSuccess : Bool) (fs : List String) : List String :=
  if uploadSuccess then
    if keepMediaCopy.getD false then
      fs.filter (fun p => !(record.recorder.any (fun m => m.path == p)))
    else fs
  else fs

/-- src/callrecord/mod.rs, CallRecordManager::save_with_s3_like, effect
on the local file system: after the uploads (whose failures are only
logged), IF keep_media_copy.unwrap_or(false) is FALSE the code deletes
each local media file and then the local JSON file, whose path is
local_files = [formatter.format_file_name(record)] (lines 675-689). -/
def saveWithS3LocalFiles (keepMediaCopy : Option Bool)
    (formatter : DefaultCallRecordFormatter) (record : CallRecord)
    (fs : List String) : List String :=
  if keepMediaCopy.getD false then fs
  else
    (fs.filter (fun p => !(record.recorder.any (fun m => m.path == p)))).filter
      (fun p => !(p == formatter.formatFileName record))

/-- A record owning one local media file /tmp/a.wav. -/
def mediaFileRecord : CallRecord :=
  .mk .sip Option.none "m1" ⟨2024, 6, 1, 12, 0, 0⟩ Option.none Option.none
    ⟨2024, 6, 1, 12, 1, 0⟩ "a" "b" 200 Option.none []
    [⟨"t1", "/tmp/a.wav", 4, Option.none⟩] Option.none Option.none .none

/-- C1: the HTTP path's keep_media_copy handling is inverted.  With
keep_media_copy = true a successful HTTP upload REMOVES the local media
file, and with keep_media_copy false (or absent) it KEEPS it — the
opposite of the claim and of the S3 path, which correctly removes the
media and the local JSON file exactly when keep_media_copy is false. -/
theorem keep_media_copy_http_inverted :
    saveWithHttpLocalFiles (Option.some true) mediaFileRecord true ["/tmp/a.wav"] = []
    ∧ saveWithHttpLocalFiles (Option.some false) mediaFileRecord true ["/tmp/a.wav"]
        = ["/tmp/a.wav"]
    ∧ saveWithHttpLocalFiles Option.none mediaFileRecord true ["/tmp/a.wav"]
        = ["/tmp/a.wav"]
    ∧ saveWithS3LocalFiles (Option.some false) { root := "/tmp/cdr" } mediaFileRecord
        ["/tmp/a.wav", "/tmp/cdr/20240601/20240601-120000_m1.json"] = []
    ∧ saveWithS3LocalFiles Option.none { root := "/tmp/cdr" } mediaFileRecord
        ["/tmp/a.wav", "/tmp/cdr/20240601/20240601-120000_m1.json"] = []
    ∧ saveWithS3LocalFiles (Option.some true) { root := "/tmp/cdr" } mediaFileRecord
        ["/tmp/a.wav", "/tmp/cdr/20240601/20240601-120000_m1.json"]
        = ["/tmp/a.wav", "/tmp/cdr/20240601/20240601-120000_m1.json"] := by
  refine ⟨rfl, rfl, rfl, ?_, ?_, rfl⟩ <;> rfl

/-- src/callrecord/mod.rs: struct CallRecordManagerBuilder (only the
data the claims need; the saver and formatter slots are presence
flags). -/
structure CallRecordManagerBuilder where
  cancelToken : Option Unit
  config : Option CallRecordConfig
  maxConcurrent : Option Nat
  saverFn : Option Unit
  formatter : Option Unit

/-- CallRecordManagerBuilder::new. -/
def CallRecordManagerBuilder.new : CallRecordManagerBuilder :=
  ⟨Option.none, Option.none, Option.none, Option.none, Option.none⟩

/-- The manager data the claims need. -/
structure CallRecordManager where
  maxConcurrent : Nat
  config : CallRecordConfig

/-- CallRecordManagerBuilder::build: max_concurrent =
self.max_concurrent.unwrap_or(64); config = unwrap_or_default (the
directory-creation side effect is not modelled). -/
def CallRecordManagerBuilder.build (b : CallRecordManagerBuilder) : CallRecordManager :=
  { maxConcurrent := b.maxConcurrent.getD 64,
    config := b.config.getD CallRecordConfig.default }

/-- State of the recv_loop transition system: queue is the number of
records waiting in the unbounded channel, inflight the size of the
FuturesUnordered set, draining is true between dispatching a batch and
the inner "drain all" loop finishing, stopped when recv_many returned
0. -/
structure MgrState where
  maxConcurrent : Nat
  queue : Nat
  closed : Bool
  inflight : Nat
  draining : Bool
  stopped : Bool
deriving DecidableEq, Repr

/-- Events of the recv_loop transition system.  enqueue/close are the
environment (producers of the unbounded channel); recvBatch n is
recv_many returning n records which are all pushed; awaitOne is the
limit == 0 branch awaiting one completion; drainOne/drainDone are the
"while futures.next().await is Some" loop after a batch; stop is
recv_many returning 0 (channel closed and empty). -/
inductive MgrLabel where
  | enqueue | close | recvBatch (n : Nat) | awaitOne | drainOne | drainDone | stop
deriving DecidableEq, Repr

/-- Guards, from the loop body: limit = max_concurrent - futures.len();
recv_many is called only when limit > 0 and returns 1..=min(limit,
queue) records (its contract) or 0 when the channel is closed and
empty; the limit == 0 branch awaits one completion when the set is
non-empty; the drain loop pops completions until empty. -/
def mgrGuard (s : MgrState) : MgrLabel → Bool
  | .enqueue => !s.closed
  | .close => !s.closed
  | .recvBatch n => !s.stopped && !s.draining
      && decide (0 < s.maxConcurrent - s.inflight)
      && decide (1 ≤ n) && decide (n ≤ s.maxConcurrent - s.inflight)
      && decide (n ≤ s.queue)
  | .awaitOne => !s.stopped && !s.draining
      && decide (s.maxConcurrent - s.inflight = 0) && decide (0 < s.inflight)
  | .drainOne => !s.stopped && s.draining && decide (0 < s.inflight)
  | .drainDone => !s.stopped && s.draining && decide (s.inflight = 0)
  | .stop => !s.stopped && !s.draining && decide (0 < s.maxConcurrent - s.inflight)
      && decide (s.queue = 0) && s.closed

/-- Effect of each event on the state. -/
def mgrApply (s : MgrState) : MgrLabel → MgrState
  | .enqueue => { s with queue := s.queue + 1 }
  | .close => { s with closed := true }
  | .recvBatch n =>
    { s with queue := s.queue - n, inflight := s.inflight + n, draining := true }
  | .awaitOne => { s with inflight := s.inflight - 1 }
  | .drainOne => { s with inflight := s.inflight - 1 }
  | .drainDone => { s with draining := false }
  | .stop => { s with stopped := true }

/-- The state recv_loop starts in: no futures in flight, not draining,
with queue0 records already sent on the channel (closed when the
producers are gone). -/
def mgrInit (maxC queue0 : Nat) (closed : Bool) : MgrState :=
  ⟨maxC, queue0, closed, 0, false, false⟩

/-- Runs a label sequence, failing on the first guard violation. -/
def mgrRun : MgrState → List MgrLabel → Option MgrState
  | s, [] => Option.some s
  | s, l :: ls => if mgrGuard s l then mgrRun (mgrApply s l) ls else Option.none

/-- All states visited by a run (head = initial state). -/
def mgrStates : MgrState → List MgrLabel → List MgrState
  | s, [] => [s]
  | s, l :: ls => s :: mgrStates (mgrApply s l) ls

theorem mgrApply_maxConcurrent (s : MgrState) (l : MgrLabel) :
    (mgrApply s l).maxConcurrent = s.maxConcurrent := by
  cases l <;> rfl

theorem mgrStep_inflight (s : MgrState) (l : MgrLabel) (hg : mgrGuard s l = true)
    (h : s.inflight ≤ s.maxConcurrent) :
    (mgrApply s l).inflight ≤ (mgrApply s l).maxConcurrent := by
  cases l <;>
    simp only [mgrGuard, mgrApply, Bool.and_eq_true, decide_eq_true_eq,
      Bool.not_eq_true'] at hg ⊢ <;>
    omega

theorem mgr_inflight_invariant : ∀ (ls : List MgrLabel) (s0 : MgrState),
    s0.inflight ≤ s0.maxConcurrent → (mgrRun s0 ls).isSome = true →
    ∀ s ∈ mgrStates s0 ls, s.inflight ≤ s.maxConcurrent := by
  intro ls
  induction ls with
  | nil =>
    intro s0 h0 _ s hs
    simp [mgrStates] at hs
    subst hs; exact h0
  | cons l ls ih =>
    intro s0 h0 hrun s hs
    simp only [mgrRun] at hrun
    by_cases hg : mgrGuard s0 l = true
    · rw [if_pos hg] at hrun
      simp only [mgrStates, List.mem_cons] at hs
      rcases hs with rfl | hs
      · exact h0
      · exact ih (mgrApply s0 l) (mgrStep_inflight s0 l hg h0) hrun s hs
    · rw [if_neg hg] at hrun
      simp at hrun

/-- C2: in every state reachable during recv_loop the number of
in-flight persistence futures is at most max_concurrent, and the
builder defaults max_concurrent to 64 when given none. -/
theorem cdr_manager_bounded_and_default_64 :
    (∀ (maxC queue0 : Nat) (closed : Bool) (ls : List MgrLabel),
      (mgrRun (mgrInit maxC queue0 closed) ls).isSome = true →
      ∀ s ∈ mgrStates (mgrInit maxC queue0 closed) ls, s.inflight ≤ s.maxConcurrent)
    ∧ CallRecordManagerBuilder.new.build.maxConcurrent = 64 :=
  ⟨fun maxC queue0 closed ls hrun s hs =>
    mgr_inflight_invariant ls (mgrInit maxC queue0 closed) (Nat.zero_le _) hrun s hs,
   rfl⟩

/-- C2 witness: a concrete run (batch of 2 on a manager with
max_concurrent 64) whose visited states all satisfy the bound, checked
at the state right after the batch. -/
theorem cdr_manager_bounded_witness :
    (mgrRun (mgrInit 64 2 true)
      [.recvBatch 2, .drainOne, .drainOne, .drainDone, .stop]).isSome = true
    ∧ (⟨64, 0, true, 2, true, false⟩ : MgrState) ∈
        mgrStates (mgrInit 64 2 true)
          [.recvBatch 2, .drainOne, .drainOne, .drainDone, .stop]
    ∧ (2 : Nat) ≤ 64
    ∧ CallRecordManagerBuilder.new.build.maxConcurrent = 64 :=
  ⟨by decide, by decide,
   cdr_manager_bounded_and_default_64.1 64 2 true
     [.recvBatch 2, .drainOne, .drainOne, .drainDone, .stop] (by decide)
     ⟨64, 0, true, 2, true, false⟩ (by decide),
   cdr_manager_bounded_and_default_64.2⟩

/-- Completion events: a persistence future finishing. -/
def isCompletion : MgrLabel → Bool
  | .awaitOne => true
  | .drainOne => true
  | _ => false

/-- Batch-acceptance events. -/
def isBatch : MgrLabel → Bool
  | .recvBatch _ => true
  | _ => false

/-- Placeholder state for out-of-range indexing. -/
def mgrDead : MgrState := ⟨0, 0, false, 0, false, false⟩

/-- The state after i steps of a run (head state for i = 0). -/
def stateAt (s0 : MgrState) (ls : List MgrLabel) (i : Nat) : MgrState :=
  (mgrStates s0 ls).getD i mgrDead

/-- No batch is accepted by the labels at positions i..j-1. -/
def noBatchBetween (ls : List MgrLabel) (i j : Nat) : Bool :=
  ((ls.drop i).take (j - i)).all (fun l => !isBatch l)

/-- The number of persistences completing at positions i..j-1. -/
def completionsBetween (ls : List MgrLabel) (i j : Nat) : Nat :=
  (((ls.drop i).take (j - i)).filter isCompletion).length

/-- The claim's temporal property over one run: whenever the in-flight
set is full (after i steps), exactly one in-flight persistence
completes before the next batch is accepted (the label at position
j). -/
def waitsExactlyOneB (s0 : MgrState) (ls : List MgrLabel) : Bool :=
  (List.range ls.length).all fun i =>
    (List.range ls.length).all fun j =>
      !(decide (i < j)
          && decide ((stateAt s0 ls i).inflight = (stateAt s0 ls i).maxConcurrent)
          && isBatch (ls.getD j .enqueue)
          && noBatchBetween ls i j)
        || decide (completionsBetween ls i j = 1)

/-- The claim's batch-size property over one run: each recv_many batch
accepts at most max_concurrent - in_flight records. -/
def batchBoundB (s0 : MgrState) (ls : List MgrLabel) : Bool :=
  (List.range ls.length).all fun t =>
    match ls.getD t .enqueue with
    | .recvBatch n =>
      decide (n ≤ (stateAt s0 ls t).maxConcurrent - (stateAt s0 ls t).inflight)
    | _ => true

/-- The C3 claim, as stated, over one run. -/
def claimC3B (s0 : MgrState) (ls : List MgrLabel) : Bool :=
  batchBoundB s0 ls && waitsExactlyOneB s0 ls

/-- The run refuting C3: max_concurrent = 2, three records queued.  The
loop accepts a batch of 2 (set full), then drains BOTH futures before
accepting the third record. -/
def c3run : List MgrLabel :=
  [.recvBatch 2, .drainOne, .drainOne, .drainDone, .recvBatch 1, .drainOne,
   .drainDone, .stop]

/-- C3 counterexample: a valid recv_loop run on which the claim is
false — after the in-flight set fills (2 = max_concurrent), TWO
completions (the drain-all loop), not exactly one, occur before the
next record is accepted. -/
theorem recv_loop_waits_exactly_one_counterexample :
    (mgrRun (mgrInit 2 3 true) c3run).isSome = true
    ∧ claimC3B (mgrInit 2 3 true) c3run = false := by
  decide

theorem mgrStep_drain_zero (s : MgrState) (l : MgrLabel) (hg : mgrGuard s l = true)
    (h : s.draining = false → s.inflight = 0) :
    (mgrApply s l).draining = false → (mgrApply s l).inflight = 0 := by
  cases l with
  | enqueue => exact h
  | close => exact h
  | recvBatch n => simp [mgrApply]
  | awaitOne =>
    simp only [mgrGuard, Bool.and_eq_true, decide_eq_true_eq, Bool.not_eq_true'] at hg
    have h0 := h hg.1.1.2
    omega
  | drainOne =>
    simp only [mgrGuard, Bool.and_eq_true, decide_eq_true_eq] at hg
    simp only [mgrApply]
    intro hd
    rw [hg.1.2] at hd
    exact absurd hd (by simp)
  | drainDone =>
    simp only [mgrGuard, Bool.and_eq_true, decide_eq_true_eq] at hg
    simp only [mgrApply]
    intro _
    exact hg.2
  | stop => exact h

theorem mgr_batch_zero_inflight : ∀ (ls : List MgrLabel) (s0 : MgrState),
    (s0.draining = false → s0.inflight = 0) → (mgrRun s0 ls).isSome = true →
    ∀ t n, ls.getD t .enqueue = .recvBatch n →
      (stateAt s0 ls t).inflight = 0 ∧ 1 ≤ n
        ∧ n ≤ (stateAt s0 ls t).maxConcurrent := by
  intro ls
  induction ls with
  | nil =>
    intro s0 _ _ t n ht
    simp [List.getD] at ht
  | cons l ls ih =>
    intro s0 hP hrun t n ht
    simp only [mgrRun] at hrun
    by_cases hg : mgrGuard s0 l = true
    · rw [if_pos hg] at hrun
      match t with
      | 0 =>
        simp only [List.getD_cons_zero] at ht
        subst ht
        simp only [mgrGuard, Bool.and_eq_true, decide_eq_true_eq,
          Bool.not_eq_true'] at hg
        obtain ⟨⟨⟨⟨⟨hstop, hdr⟩, hlim⟩, h1n⟩, hn⟩, hq⟩ := hg
        have h0 : s0.inflight = 0 := hP hdr
        simp only [stateAt, mgrStates, List.getD_cons_zero]
        refine ⟨h0, h1n, ?_⟩
        omega
      | t + 1 =>
        simp only [List.getD_cons_succ] at ht
        have := ih (mgrApply s0 l) (mgrStep_drain_zero s0 l hg hP) hrun t n ht
        simpa [stateAt, mgrStates] using this
    · rw [if_neg hg] at hrun
      simp at hrun

theorem mgr_no_awaitOne : ∀ (ls : List MgrLabel) (s0 : MgrState),
    (s0.draining = false → s0.inflight = 0) → (mgrRun s0 ls).isSome = true →
    ∀ t, ls.getD t .enqueue ≠ .awaitOne := by
  intro ls
  induction ls with
  | nil =>
    intro s0 _ _ t
    simp [List.getD]
  | cons l ls ih =>
    intro s0 hP hrun t
    simp only [mgrRun] at hrun
    by_cases hg : mgrGuard s0 l = true
    · rw [if_pos hg] at hrun
      match t with
      | 0 =>
        simp only [List.getD_cons_zero]
        intro ht
        subst ht
        simp only [mgrGuard, Bool.and_eq_true, decide_eq_true_eq,
          Bool.not_eq_true'] at hg
        have h0 := hP hg.1.1.2
        omega
      | t + 1 =>
        simp only [List.getD_cons_succ]
        exact ih (mgrApply s0 l) (mgrStep_drain_zero s0 l hg hP) hrun t
    · rw [if_neg hg] at hrun
      simp at hrun

/-- C3 (amended): each recv_many batch accepts up to
max_concurrent - in_flight records, but because the loop drains ALL
in-flight persistences after each batch, the in-flight set is empty at
every accept (so each batch accepts between 1 and max_concurrent
records, and after the set fills the loop waits for all — not exactly
one — persistences to complete before accepting more); the limit == 0
wait-for-one branch is never executed. -/
theorem recv_loop_batch_amended (s0 : MgrState) (ls : List MgrLabel)
    (hin : s0.inflight = 0) (hrun : (mgrRun s0 ls).isSome = true) :
    (∀ t n, ls.getD t .enqueue = .recvBatch n →
      (stateAt s0 ls t).inflight = 0 ∧ 1 ≤ n
        ∧ n ≤ (stateAt s0 ls t).maxConcurrent)
    ∧ (∀ t, ls.getD t .enqueue ≠ .awaitOne) :=
  ⟨mgr_batch_zero_inflight ls s0 (fun _ => hin) hrun,
   mgr_no_awaitOne ls s0 (fun _ => hin) hrun⟩

/-- C3 witness: the amended statement applied to the concrete
counterexample run, checked at its second batch (position 4, batch size
1, accepted with zero futures in flight). -/
theorem recv_loop_batch_amended_witness :
    (mgrInit 2 3 true).inflight = 0
    ∧ (mgrRun (mgrInit 2 3 true) c3run).isSome = true
    ∧ (stateAt (mgrInit 2 3 true) c3run 4).inflight = 0
    ∧ (1 : Nat) ≤ 1 ∧ (1 : Nat) ≤ (stateAt (mgrInit 2 3 true) c3run 4).maxConcurrent
    ∧ c3run.getD 7 .enqueue ≠ .awaitOne :=
  ⟨rfl, by decide,
   ((recv_loop_batch_amended (mgrInit 2 3 true) c3run rfl (by decide)).1 4 1
     (by decide)).1,
   ((recv_loop_batch_amended (mgrInit 2 3 true) c3run rfl (by decide)).1 4 1
     (by decide)).2.1,
   ((recv_loop_batch_amended (mgrInit 2 3 true) c3run rfl (by decide)).1 4 1
     (by decide)).2.2,
   (recv_loop_batch_amended (mgrInit 2 3 true) c3run rfl (by decide)).2 7⟩

/-- Modelled from the spec: the engine's canonical internal sample rate
(crate::media::INTERNAL_SAMPLERATE, "16 kHz by default"). -/
def INTERNAL_SAMPLERATE : Nat := 16000

/-- Modelled from the spec: the Samples tagged variant of an AudioFrame
(PCM signed-16 vector, raw RTP payload, or Empty). -/
inductive Samples where
  | pcm (samples : List Int)
  | rtp (payloadType : Nat) (payload : List Nat)
  | empty
deriving DecidableEq, Repr

/-- Modelled from the spec: the AudioFrame carrier (track id, timestamp
in ms, sample rate in Hz, channel count, samples). -/
structure AudioFrame where
  trackId : String
  timestamp : Nat
  sampleRate : Nat
  channels : Nat
  samples : Samples
deriving DecidableEq, Repr

/-- src/media/ambiance.rs: struct AmbianceProcessor.  The f32 levels
are modelled as exact rationals; cursor/phase/step are the usize/u32
fields. -/
structure AmbianceProcessor where
  samples : List Int
  cursor : Nat
  duckLevel : ℚ
  normalLevel : ℚ
  enabled : Bool
  currentLevel : ℚ
  transitionSpeed : ℚ
  resamplePhase : Nat
  resampleStep : Nat
deriving DecidableEq, Repr

/-- Truncation toward zero of a rational (the Rust `as i32` cast). -/
def ratTrunc (q : ℚ) : Int := q.num.tdiv q.den

/-- Wrapping to i16 (the Rust `as i16` cast). -/
def wrapI16 (x : Int) : Int := (x + 32768) % 65536 - 32768

/-- src/media/ambiance.rs: get_ambient_sample_with_rate.  Returns
samples[cursor], then advances the fixed-point phase accumulator by
step = (INTERNAL_SAMPLERATE << 16) / target_rate; the source's `while
phase >= 1 << 16 { phase -= 1 << 16; cursor = (cursor + 1) % len }` is
computed in closed form (advance = total / 2^16, phase = total % 2^16),
and the u32 addition wraps mod 2^32.  An empty loop returns 0 and
leaves the state unchanged. -/
def getAmbientSample (st : AmbianceProcessor) (targetRate : Nat) :
    Int × AmbianceProcessor :=
  if st.samples.isEmpty then (0, st)
  else
    let step := (INTERNAL_SAMPLERATE * 65536) / targetRate
    let sample := st.samples.getD st.cursor 0
    let total := (st.resamplePhase + step) % 2 ^ 32
    (sample,
      { st with
          resampleStep := step
          resamplePhase := total % 65536
          cursor := (st.cursor + total / 65536) % st.samples.length })

/-- src/media/ambiance.rs: soft_mix.  ambient_scaled =
(ambient * (level*256 as i32)) >> 8, saturating softly at the i16
bounds; arithmetic shifts are floor divisions; the final `as i16` cast
wraps. -/
def softMix (signal ambient : Int) (level : ℚ) : Int :=
  let ambientScaled := (ambient * ratTrunc (level * 256)).fdiv 256
  let mixed := signal + ambientScaled
  wrapI16 (if mixed > 32767 then 32767 - (mixed - 32767).fdiv 4
    else if mixed < -32768 then -32768 + (-32768 - mixed).fdiv 4
    else mixed)

/-- The ambient-only sample written into an Empty frame:
((ambient as i32 * (current_level * 256.0) as i32) >> 8) as i16. -/
def scaleAmbient (level : ℚ) (ambient : Int) : Int :=
  wrapI16 ((ambient * ratTrunc (level * 256)).fdiv 256)

/-- src/media/ambiance.rs lines 138-144: one attack/decay step of the
current level toward the target, clamped at the target, taken when the
distance exceeds 0.001. -/
def levelStep (current target speed : ℚ) : ℚ :=
  if |current - target| > 1 / 1000 then
    if current < target then min (current + speed) target
    else max (current - speed) target
  else current

/-- One channel group of the PCM mixing loop: writes
soft_mix(samples[idx], ambient, level) at idx = base..base+channels-1,
guarded by idx < samples.len(). -/
def mixGroup (samples : List Int) (base channels : Nat) (level : ℚ) (ambient : Int) :
    List Int :=
  (List.range channels).foldl
    (fun acc c =>
      if base + c < acc.length then
        acc.set (base + c) (softMix (acc.getD (base + c) 0) ambient level)
      else acc)
    samples

/-- The PCM mixing loop over frame_sample_count = len / channels
groups. -/
def mixLoop (st : AmbianceProcessor) (rate channels : Nat) :
    Nat → Nat → List Int → List Int × AmbianceProcessor
  | 0, _, samples => (samples, st)
  | n + 1, i, samples =>
    let (a, st1) := getAmbientSample st rate
    mixLoop st1 rate channels n (i + 1)
      (mixGroup samples (i * channels) channels st1.currentLevel a)

/-- The Empty-frame generation loop: frame_size ambient samples, each
scaled once and pushed channels times. -/
def genFrame (st : AmbianceProcessor) (rate channels : Nat) :
    Nat → List Int × AmbianceProcessor
  | 0 => ([], st)
  | n + 1 =>
    let (a, st1) := getAmbientSample st rate
    let scaled := scaleAmbient st1.currentLevel a
    let (rest, st2) := genFrame st1 rate channels n
    (List.replicate channels scaled ++ rest, st2)

/-- src/media/ambiance.rs: AmbianceProcessor::process_frame (always
returns Ok, so the Result wrapper is dropped).  Disabled processors and
empty loops leave the frame alone; otherwise the level ducks toward
duck_level while the server side is speaking (non-empty PCM or RTP) and
recovers toward normal_level otherwise; PCM frames are mixed in place,
Empty frames are replaced by a 20 ms ambient-only PCM frame at the
frame's rate (or the internal rate when the frame's rate is 0). -/
def AmbianceProcessor.processFrame (st : AmbianceProcessor) (frame : AudioFrame) :
    AmbianceProcessor × AudioFrame :=
  if !st.enabled || st.samples.isEmpty then (st, frame)
  else
    let isSpeaking := match frame.samples with
      | .pcm samples => !samples.isEmpty
      | .rtp _ _ => true
      | .empty => false
    let target := if isSpeaking then st.duckLevel else st.normalLevel
    let st1 := { st with currentLevel := levelStep st.currentLevel target st.transitionSpeed }
    let rate := if frame.sampleRate > 0 then frame.sampleRate else INTERNAL_SAMPLERATE
    let channels := max frame.channels 1
    match frame.samples with
    | .pcm samples =>
      let (samples2, st2) := mixLoop st1 rate channels (samples.length / channels) 0 samples
      (st2, { frame with samples := .pcm samples2 })
    | .empty =>
      let frameSize := rate * 20 / 1000
      let (out, st2) := genFrame st1 rate channels frameSize
      (st2, { frame with samples := .pcm out, sampleRate := rate, channels := channels })
    | .rtp _ _ => (st, frame)

/-- The fixed-point resampling step for a target rate. -/
def ambientStep (rate : Nat) : Nat := (INTERNAL_SAMPLERATE * 65536) / rate

/-- Closed form for the loop sample read by the n-th
get_ambient_sample_with_rate call (phase accumulator advanced n
times). -/
def ambientAt (st : AmbianceProcessor) (rate n : Nat) : Int :=
  st.samples.getD
    ((st.cursor + (st.resamplePhase + n * ambientStep rate) / 65536)
      % st.samples.length) 0

/-- The expected Empty-frame output from offset: count ambient samples,
each scaled by the current level and replicated once per channel. -/
def ambianceSpecAux (st : AmbianceProcessor) (rate channels offset : Nat) :
    Nat → List Int
  | 0 => []
  | c + 1 =>
    List.replicate channels (scaleAmbient st.currentLevel (ambientAt st rate offset))
      ++ ambianceSpecAux st rate channels (offset + 1) c

theorem ambientStep_le (rate : Nat) : ambientStep rate ≤ 16000 * 65536 := by
  unfold ambientStep INTERNAL_SAMPLERATE
  exact Nat.div_le_self _ _

theorem getAmbientSample_eq (st : AmbianceProcessor) (rate : Nat)
    (hs : st.samples ≠ []) (hphase : st.resamplePhase < 65536) :
    getAmbientSample st rate
      = (st.samples.getD st.cursor 0,
         { st with
             resampleStep := ambientStep rate
             resamplePhase := (st.resamplePhase + ambientStep rate) % 65536
             cursor := (st.cursor + (st.resamplePhase + ambientStep rate) / 65536)
               % st.samples.length }) := by
  have hstep := ambientStep_le rate
  have hmod : (st.resamplePhase + INTERNAL_SAMPLERATE * 65536 / rate) % 2 ^ 32
      = st.resamplePhase + INTERNAL_SAMPLERATE * 65536 / rate := by
    unfold ambientStep at hstep
    exact Nat.mod_eq_of_lt (by omega)
  rw [getAmbientSample]
  rw [if_neg (by simp [hs])]
  simp only [ambientStep, hmod]

theorem ambientAt_shift (st : AmbianceProcessor) (rate n : Nat)
    (hs : st.samples ≠ []) (hphase : st.resamplePhase < 65536) :
    ambientAt (getAmbientSample st rate).2 rate n = ambientAt st rate (n + 1) := by
  rw [getAmbientSample_eq st rate hs hphase]
  unfold ambientAt
  simp only []
  congr 1
  rw [Nat.mod_add_mod]
  congr 1
  have hmul : (n + 1) * ambientStep rate = ambientStep rate + n * ambientStep rate := by
    ring
  rw [hmul]
  set A := st.resamplePhase + ambientStep rate with hA
  set B := n * ambientStep rate with hB
  have : st.resamplePhase + (ambientStep rate + B) = A + B := by omega
  rw [this]
  omega

theorem ambientAt_zero (st : AmbianceProcessor) (rate : Nat)
    (hphase : st.resamplePhase < 65536) (hcur : st.cursor < st.samples.length) :
    ambientAt st rate 0 = st.samples.getD st.cursor 0 := by
  unfold ambientAt
  congr 1
  have h1 : st.resamplePhase + 0 * ambientStep rate = st.resamplePhase := by omega
  rw [h1]
  have h2 : st.resamplePhase / 65536 = 0 := Nat.div_eq_of_lt hphase
  rw [h2, Nat.add_zero]
  exact Nat.mod_eq_of_lt hcur

theorem ambianceSpecAux_shift (st st1 : AmbianceProcessor) (rate channels : Nat)
    (hlvl : st1.currentLevel = st.currentLevel)
    (hat : ∀ n, ambientAt st1 rate n = ambientAt st rate (n + 1)) :
    ∀ (c offset : Nat), ambianceSpecAux st1 rate channels offset c
      = ambianceSpecAux st rate channels (offset + 1) c := by
  intro c
  induction c with
  | zero => intro offset; rfl
  | succ c ih =>
    intro offset
    simp only [ambianceSpecAux, hlvl, hat offset, ih (offset + 1)]

theorem ambianceSpecAux_length (st : AmbianceProcessor) (rate channels : Nat) :
    ∀ (c offset : Nat), (ambianceSpecAux st rate channels offset c).length
      = c * channels := by
  intro c
  induction c with
  | zero => intro offset; simp [ambianceSpecAux]
  | succ c ih =>
    intro offset
    simp only [ambianceSpecAux, List.length_append, List.length_replicate, ih]
    ring

theorem genFrame_spec (rate channels : Nat) (_hrate : 0 < rate) :
    ∀ (count : Nat) (st : AmbianceProcessor), st.samples ≠ [] →
      st.resamplePhase < 65536 → st.cursor < st.samples.length →
      (genFrame st rate channels count).1 = ambianceSpecAux st rate channels 0 count := by
  intro count
  induction count with
  | zero => intro st _ _ _; rfl
  | succ c ih =>
    intro st hs hphase hcur
    have heq := getAmbientSample_eq st rate hs hphase
    have hlen : 0 < st.samples.length := List.length_pos.mpr hs
    have hs1 : (getAmbientSample st rate).2.samples = st.samples := by rw [heq]
    have hlvl : (getAmbientSample st rate).2.currentLevel = st.currentLevel := by rw [heq]
    have hphase1 : (getAmbientSample st rate).2.resamplePhase < 65536 := by
      rw [heq]
      exact Nat.mod_lt _ (by omega)
    have hcur1 : (getAmbientSample st rate).2.cursor
        < (getAmbientSample st rate).2.samples.length := by
      rw [heq]
      exact Nat.mod_lt _ hlen
    have hsne1 : (getAmbientSample st rate).2.samples ≠ [] := by rw [hs1]; exact hs
    simp only [genFrame]
    rw [ih (getAmbientSample st rate).2 hsne1 hphase1 hcur1]
    rw [ambianceSpecAux_shift st (getAmbientSample st rate).2 rate channels hlvl
      (fun n => ambientAt_shift st rate n hs hphase)]
    simp only [ambianceSpecAux, hlvl]
    rw [ambientAt_zero st rate hphase hcur]
    rw [show (getAmbientSample st rate).1 = st.samples.getD st.cursor 0 from by rw [heq]]

/-- C7: an Empty frame through an enabled ambiance processor with a
non-empty loop becomes a PCM frame of exactly 20 ms at the frame's
sample rate — sample_rate*20/1000 samples per channel — where each
sample is the ambient loop sample (at the fixed-point resampling
cursor) scaled by the current ambient level (the level after this
frame's transition step toward normal_level). -/
theorem ambiance_empty_frame_becomes_pcm (st : AmbianceProcessor) (frame : AudioFrame)
    (hen : st.enabled = true) (hs : st.samples ≠ [])
    (hemp : frame.samples = Samples.empty) (hrate : 0 < frame.sampleRate)
    (hphase : st.resamplePhase < 65536) (hcur : st.cursor < st.samples.length) :
    (st.processFrame frame).2.samples
      = Samples.pcm (ambianceSpecAux
          { st with currentLevel :=
              levelStep st.currentLevel st.normalLevel st.transitionSpeed }
          frame.sampleRate (max frame.channels 1) 0 (frame.sampleRate * 20 / 1000))
    ∧ (st.processFrame frame).2.sampleRate = frame.sampleRate
    ∧ (st.processFrame frame).2.channels = max frame.channels 1
    ∧ (ambianceSpecAux
          { st with currentLevel :=
              levelStep st.currentLevel st.normalLevel st.transitionSpeed }
          frame.sampleRate (max frame.channels 1) 0 (frame.sampleRate * 20 / 1000)).length
        = (frame.sampleRate * 20 / 1000) * max frame.channels 1 := by
  obtain ⟨tid, ts, sr, ch, smp⟩ := frame
  subst hemp
  replace hrate : 0 < sr := hrate
  have hcond : (!st.enabled || st.samples.isEmpty) = false := by
    simp [hen, hs]
  rw [AmbianceProcessor.processFrame]
  rw [if_neg (by rw [hcond]; simp)]
  simp only []
  rw [show (if (false = true) then st.duckLevel else st.normalLevel) = st.normalLevel
    from rfl]
  rw [if_pos hrate]
  rw [genFrame_spec sr (max ch 1) hrate (sr * 20 / 1000)
    { st with currentLevel := levelStep st.currentLevel st.normalLevel st.transitionSpeed }
    hs hphase hcur]
  exact ⟨rfl, rfl, trivial, ambianceSpecAux_length _ _ _ _ _⟩

/-- A concrete enabled processor: two-sample loop, level 3/10. -/
def sampleAmbiance : AmbianceProcessor where
  samples := [1000, -2000]
  cursor := 0
  duckLevel := 1 / 10
  normalLevel := 3 / 10
  enabled := true
  currentLevel := 3 / 10
  transitionSpeed := 1 / 100
  resamplePhase := 0
  resampleStep := 65536

/-- A concrete Empty frame at 50 Hz (one sample per 20 ms), mono. -/
def emptyFrame : AudioFrame where
  trackId := "t"
  timestamp := 0
  sampleRate := 50
  channels := 1
  samples := Samples.empty

/-- The concrete processor after its level transition step. -/
def sampleAmbiance1 : AmbianceProcessor :=
  { sampleAmbiance with currentLevel := levelStep sampleAmbiance.currentLevel sampleAmbiance.normalLevel sampleAmbiance.transitionSpeed }

/-- C7 witness: the theorem applied to a concrete processor and frame. -/
theorem ambiance_empty_frame_witness :
    sampleAmbiance.enabled = true
    ∧ sampleAmbiance.samples ≠ []
    ∧ emptyFrame.samples = Samples.empty
    ∧ 0 < emptyFrame.sampleRate
    ∧ (sampleAmbiance.processFrame emptyFrame).2.samples
        = Samples.pcm (ambianceSpecAux sampleAmbiance1
            emptyFrame.sampleRate (max emptyFrame.channels 1) 0
            (emptyFrame.sampleRate * 20 / 1000)) :=
  ⟨rfl, by decide, rfl, by decide,
   (ambiance_empty_frame_becomes_pcm sampleAmbiance emptyFrame rfl (by decide) rfl
     (by decide) (by decide) (by decide)).1⟩

/-- Modelled from the spec: ReferOption, the options record of a Refer
command (carried opaquely by the handler; pause_parent_asr is the field
§4.4 describes). -/
structure ReferOption where
  pauseParentAsr : Option Bool
deriving DecidableEq, Repr

/-- src/playbook/handler.rs: struct ChatMessage. -/
structure ChatMessage where
  role : String
  content : String
deriving DecidableEq, Repr

/-- Modelled from the spec: the Command variants the LLM handler emits
(crate::call::Command).  Tts carries the fields create_tts_command
sets; the external SynthesisOption is a presence flag. -/
inductive Command where
  | tts (text : String) (speaker : Option String) (playId : Option String)
      (autoHangup : Option Bool) (streaming : Option Bool) (endOfStream : Option Bool)
      (ttsOption : Option Unit) (waitInputTimeout : Option Nat) (base64 : Option Bool)
  | hangup (reason : Option String) (initiator : Option String)
  | refer (caller : String) (callee : String) (options : Option ReferOption)
  | interrupt (graceful : Option Bool)
deriving DecidableEq, Repr

/-- src/playbook/handler.rs: const MAX_RAG_ATTEMPTS. -/
def MAX_RAG_ATTEMPTS : Nat := 3

/-- src/playbook/handler.rs: enum ToolInvocation. -/
inductive ToolInvocation where
  | hangup (reason : Option String) (initiator : Option String)
  | refer (caller : String) (callee : String) (options : Option ReferOption)
  | rag (query : String) (source : Option String)
deriving DecidableEq, Repr

/-- src/playbook/handler.rs: struct StructuredResponse. -/
structure StructuredResponse where
  text : Option String
  waitInputTimeout : Option Nat
  tools : Option (List ToolInvocation)
deriving DecidableEq, Repr

/-- src/playbook/handler.rs: LlmHandler::create_tts_command — a Tts
command with wait_input_timeout defaulted to 10000 and every other
optional field None. -/
def createTtsCommand (text : String) (waitInputTimeout : Option Nat) : Command :=
  Command.tts text Option.none Option.none Option.none Option.none Option.none
    Option.none (Option.some (waitInputTimeout.getD 10000)) Option.none

/-- The command a tool invocation contributes (Rag contributes none). -/
def toolToCmd : ToolInvocation → Option Command
  | .hangup r i => Option.some (Command.hangup r i)
  | .refer a b o => Option.some (Command.refer a b o)
  | .rag _ _ => Option.none

/-- src/playbook/handler.rs lines 235-301: the for-loop over
structured.tools.  Hangup/Refer push their command; Rag calls the
retriever, pushes a system message "RAG result for {query}: {summary}"
(summary prefixed "[{source}] " when a source is given) and sets
rerun_for_rag.  The accumulated command list, the tools seen, the
history and the rerun flag are threaded through. -/
def processTools (retriever : String → Except Unit String) :
    List ToolInvocation → List Command → List ToolInvocation → List ChatMessage →
    Bool → Except Unit (List Command × List ToolInvocation × List ChatMessage × Bool)
  | [], cmds, seen, hist, rerun => .ok (cmds, seen, hist, rerun)
  | .hangup reason initiator :: rest, cmds, seen, hist, rerun =>
    processTools retriever rest (cmds ++ [Command.hangup reason initiator])
      (seen ++ [.hangup reason initiator]) hist rerun
  | .refer caller callee options :: rest, cmds, seen, hist, rerun =>
    processTools retriever rest (cmds ++ [Command.refer caller callee options])
      (seen ++ [.refer caller callee options]) hist rerun
  | .rag query source :: rest, cmds, seen, hist, _rerun =>
    match retriever query with
    | .error e => .error e
    | .ok ragResult =>
      let summary := match source with
        | Option.some src => "[" ++ src ++ "] " ++ ragResult
        | Option.none => ragResult
      processTools retriever rest cmds (seen ++ [.rag query source])
        (hist ++ [⟨"system", "RAG result for " ++ query ++ ": " ++ summary⟩]) true

/-- The instrumented result of interpret_response: the returned
commands plus the quantities the claims talk about (attempt count,
number of provider re-queries, the last raw response, the chosen final
text, the tool commands and tools in encounter order, the history
before and after the final assistant push). -/
structure InterpretOut where
  commands : List Command
  toolCmds : List Command
  toolsSeen : List ToolInvocation
  finalText : Option String
  lastRaw : String
  attempts : Nat
  providerCalls : Nat
  waitInputTimeout : Option Nat
  historyPre : List ChatMessage
  history : List ChatMessage
  assistantAppended : Bool
deriving Repr

/-- src/playbook/handler.rs lines 219-320: the interpret_response loop.
parse models parse_structured_response (extract_json_block +
serde_json, an external parse treated as an oracle); the provider is a
function of (number of calls made so far, current history), the
retriever of the query.  The source increments `attempts` at the top of
each iteration and re-queries only while `attempts < MAX_RAG_ATTEMPTS`
after the increment, so the recursion is driven by the structural fuel
fuel = MAX_RAG_ATTEMPTS - 1 - attempts, and fuel = 0 is exactly the
source's `attempts >= MAX_RAG_ATTEMPTS` break that reuses the last
response.  The loop's result leaves commands/history/assistantAppended
to the epilogue (finalizeCommands). -/
def interpretLoop (parse : String → Option StructuredResponse)
    (provider : Nat → List ChatMessage → Except Unit String)
    (retriever : String → Except Unit String) :
    Nat → Nat → Nat → List ChatMessage → List Command → List ToolInvocation →
    Option Nat → String → Except Unit InterpretOut
  | fuel, attempts, calls, history, toolCmds, seen, wait, raw =>
    match parse raw with
    | Option.none =>
      .ok ⟨[], toolCmds, seen, Option.some raw, raw, attempts + 1, calls, wait,
        history, [], false⟩
    | Option.some structured =>
      let wait1 := if wait.isNone then structured.waitInputTimeout else wait
      (processTools retriever (structured.tools.getD []) toolCmds seen history
          false).bind
        fun r =>
          if r.2.2.2 then
            match fuel with
            | 0 =>
              .ok ⟨[], r.1, r.2.1, Option.some (structured.text.getD raw), raw,
                attempts + 1, calls, wait1, r.2.2.1, [], false⟩
            | fuel' + 1 =>
              (provider calls r.2.2.1).bind fun raw1 =>
                interpretLoop parse provider retriever fuel' (attempts + 1)
                  (calls + 1) r.2.2.1 r.1 r.2.1 wait1 raw1
          else
            .ok ⟨[], r.1, r.2.1, Option.some (structured.text.getD raw), raw,
              attempts + 1, calls, wait1, r.2.2.1, [], false⟩

/-- An ASCII whitespace character (the fragment of Rust
char::is_whitespace this data exercises). -/
def isWsChar (c : Char) : Bool :=
  (c == ' ') || (c == '\t') || (c == '\n') || (c == '\r')

/-- Rust text.trim().is_empty(): a string trims to empty exactly when
every character is whitespace. -/
def trimIsEmpty (s : String) : Bool := s.data.all isWsChar

/-- src/playbook/handler.rs lines 322-336: the epilogue.  When the
final text is non-empty after trimming, an assistant message is pushed
and a Tts command is emitted first; the tool commands follow. -/
def finalizeCommands (out : InterpretOut) : InterpretOut :=
  match out.finalText with
  | Option.some text =>
    if trimIsEmpty text then
      { out with
          commands := out.toolCmds
          history := out.historyPre
          assistantAppended := false }
    else
      { out with
          commands := createTtsCommand text out.waitInputTimeout :: out.toolCmds
          history := out.historyPre ++ [⟨"assistant", text⟩]
          assistantAppended := true }
  | Option.none =>
    { out with
        commands := out.toolCmds
        history := out.historyPre
        assistantAppended := false }

/-- LlmHandler::interpret_response, instrumented. -/
def interpretResponse (parse : String → Option StructuredResponse)
    (provider : Nat → List ChatMessage → Except Unit String)
    (retriever : String → Except Unit String)
    (history : List ChatMessage) (initial : String) : Except Unit InterpretOut :=
  (interpretLoop parse provider retriever (MAX_RAG_ATTEMPTS - 1) 0 0 history [] []
    Option.none initial).map finalizeCommands

theorem processTools_filterMap (retriever : String → Except Unit String) :
    ∀ (tools : List ToolInvocation) (cmds : List Command) (seen : List ToolInvocation)
      (hist : List ChatMessage) (rerun : Bool)
      (r : List Command × List ToolInvocation × List ChatMessage × Bool),
      processTools retriever tools cmds seen hist rerun = .ok r →
      cmds = seen.filterMap toolToCmd → r.1 = r.2.1.filterMap toolToCmd := by
  intro tools
  induction tools with
  | nil =>
    intro cmds seen hist rerun r h hc
    simp only [processTools] at h
    cases h
    exact hc
  | cons t rest ih =>
    intro cmds seen hist rerun r h hc
    cases t with
    | hangup reason initiator =>
      simp only [processTools] at h
      refine ih _ _ _ _ r h ?_
      simp [hc, List.filterMap_append, toolToCmd]
    | refer caller callee options =>
      simp only [processTools] at h
      refine ih _ _ _ _ r h ?_
      simp [hc, List.filterMap_append, toolToCmd]
    | rag query source =>
      simp only [processTools] at h
      cases hq : retriever query with
      | error e => rw [hq] at h; simp at h
      | ok v =>
        rw [hq] at h
        simp only [] at h
        refine ih _ _ _ _ r h ?_
        simp [hc, List.filterMap_append, toolToCmd]

theorem interpretLoop_spec (parse : String → Option StructuredResponse)
    (provider : Nat → List ChatMessage → Except Unit String)
    (retriever : String → Except Unit String) :
    ∀ (fuel attempts calls : Nat) (history : List ChatMessage)
      (toolCmds : List Command) (seen : List ToolInvocation) (wait : Option Nat)
      (raw : String) (out : InterpretOut),
      interpretLoop parse provider retriever fuel attempts calls history toolCmds seen
        wait raw = .ok out →
      out.attempts ≤ attempts + fuel + 1
      ∧ out.providerCalls ≤ calls + fuel
      ∧ out.finalText = Option.some (match parse out.lastRaw with
          | Option.some st => st.text.getD out.lastRaw
          | Option.none => out.lastRaw)
      ∧ (toolCmds = seen.filterMap toolToCmd →
          out.toolCmds = out.toolsSeen.filterMap toolToCmd) := by
  intro fuel
  induction fuel with
  | zero =>
    intro attempts calls history toolCmds seen wait raw out h
    rw [interpretLoop] at h
    cases hp : parse raw with
    | none =>
      rw [hp] at h
      cases h
      refine ⟨?_, ?_, ?_, ?_⟩
      · show attempts + 1 ≤ attempts + 0 + 1
        omega
      · show calls ≤ calls + 0
        omega
      · show Option.some raw = Option.some (match parse raw with
          | Option.some st => st.text.getD raw
          | Option.none => raw)
        simp [hp]
      · exact fun hc => hc
    | some structured =>
      rw [hp] at h
      simp only [] at h
      cases hq : processTools retriever (structured.tools.getD []) toolCmds seen
          history false with
      | error e => rw [hq] at h; simp [Except.bind] at h
      | ok r =>
        rw [hq] at h
        simp only [Except.bind] at h
        have hfm := processTools_filterMap retriever _ _ _ _ _ r hq
        by_cases hr : r.2.2.2 = true
        · rw [if_pos hr] at h
          cases h
          refine ⟨?_, ?_, ?_, ?_⟩
          · show attempts + 1 ≤ attempts + 0 + 1
            omega
          · show calls ≤ calls + 0
            omega
          · show Option.some (structured.text.getD raw)
              = Option.some (match parse raw with
                | Option.some st => st.text.getD raw
                | Option.none => raw)
            simp [hp]
          · exact hfm
        · rw [if_neg hr] at h
          cases h
          refine ⟨?_, ?_, ?_, ?_⟩
          · show attempts + 1 ≤ attempts + 0 + 1
            omega
          · show calls ≤ calls + 0
            omega
          · show Option.some (structured.text.getD raw)
              = Option.some (match parse raw with
                | Option.some st => st.text.getD raw
                | Option.none => raw)
            simp [hp]
          · exact hfm
  | succ fuel ih =>
    intro attempts calls history toolCmds seen wait raw out h
    rw [interpretLoop] at h
    cases hp : parse raw with
    | none =>
      rw [hp] at h
      cases h
      refine ⟨?_, ?_, ?_, ?_⟩
      · show attempts + 1 ≤ attempts + (fuel + 1) + 1
        omega
      · show calls ≤ calls + (fuel + 1)
        omega
      · show Option.some raw = Option.some (match parse raw with
          | Option.some st => st.text.getD raw
          | Option.none => raw)
        simp [hp]
      · exact fun hc => hc
    | some structured =>
      rw [hp] at h
      simp only [] at h
      cases hq : processTools retriever (structured.tools.getD []) toolCmds seen
          history false with
      | error e => rw [hq] at h; simp [Except.bind] at h
      | ok r =>
        rw [hq] at h
        simp only [Except.bind] at h
        have hfm := processTools_filterMap retriever _ _ _ _ _ r hq
        by_cases hr : r.2.2.2 = true
        · rw [if_pos hr] at h
          cases hv : provider calls r.2.2.1 with
          | error e => rw [hv] at h; simp [Except.bind] at h
          | ok raw1 =>
            rw [hv] at h
            simp only [Except.bind] at h
            have := ih (attempts + 1) (calls + 1) r.2.2.1 r.1 r.2.1
              (if wait.isNone then structured.waitInputTimeout else wait) raw1 out h
            exact ⟨by omega, by omega, this.2.2.1, fun hc => this.2.2.2 (hfm hc)⟩
        · rw [if_neg hr] at h
          cases h
          refine ⟨?_, ?_, ?_, ?_⟩
          · show attempts + 1 ≤ attempts + (fuel + 1) + 1
            omega
          · show calls ≤ calls + (fuel + 1)
            omega
          · show Option.some (structured.text.getD raw)
              = Option.some (match parse raw with
                | Option.some st => st.text.getD raw
                | Option.none => raw)
            simp [hp]
          · exact hfm

theorem finalizeCommands_fields (o : InterpretOut) :
    (finalizeCommands o).attempts = o.attempts
    ∧ (finalizeCommands o).providerCalls = o.providerCalls
    ∧ (finalizeCommands o).finalText = o.finalText
    ∧ (finalizeCommands o).lastRaw = o.lastRaw
    ∧ (finalizeCommands o).toolCmds = o.toolCmds
    ∧ (finalizeCommands o).toolsSeen = o.toolsSeen
    ∧ (finalizeCommands o).waitInputTimeout = o.waitInputTimeout
    ∧ (finalizeCommands o).historyPre = o.historyPre := by
  rw [finalizeCommands.eq_def]
  cases o.finalText with
  | none => exact ⟨rfl, rfl, rfl, rfl, rfl, rfl, rfl, rfl⟩
  | some t =>
    simp only []
    by_cases ht : trimIsEmpty t = true
    · rw [if_pos ht]
      exact ⟨rfl, rfl, rfl, rfl, rfl, rfl, rfl, rfl⟩
    · rw [if_neg ht]
      exact ⟨rfl, rfl, rfl, rfl, rfl, rfl, rfl, rfl⟩

/-- C6: interpret_response terminates after at most MAX_RAG_ATTEMPTS
(3) loop iterations and at most 2 provider re-queries after the initial
response, even for a provider that returns a RAG tool invocation on
every call, and the returned commands are built from the last response
received: the final text is that response's structured text (or the raw
response itself), and the command list is the Tts command for that text
(when non-empty after trimming) followed by the accumulated tool
commands. -/
theorem llm_interpret_rag_limit (parse : String → Option StructuredResponse)
    (provider : Nat → List ChatMessage → Except Unit String)
    (retriever : String → Except Unit String)
    (history : List ChatMessage) (initial : String) (out : InterpretOut)
    (h : interpretResponse parse provider retriever history initial = .ok out) :
    out.attempts ≤ MAX_RAG_ATTEMPTS
    ∧ out.providerCalls ≤ MAX_RAG_ATTEMPTS - 1
    ∧ out.finalText = Option.some (match parse out.lastRaw with
        | Option.some st => st.text.getD out.lastRaw
        | Option.none => out.lastRaw)
    ∧ out.commands = (match out.finalText with
        | Option.some t =>
          if trimIsEmpty t then out.toolCmds
          else createTtsCommand t out.waitInputTimeout :: out.toolCmds
        | Option.none => out.toolCmds) := by
  rw [interpretResponse] at h
  cases hl : interpretLoop parse provider retriever (MAX_RAG_ATTEMPTS - 1) 0 0 history
      [] [] Option.none initial with
  | error e => rw [hl] at h; simp [Except.map] at h
  | ok o =>
    rw [hl] at h
    simp only [Except.map] at h
    cases h
    have hs := interpretLoop_spec parse provider retriever (MAX_RAG_ATTEMPTS - 1) 0 0
      history [] [] Option.none initial o hl
    have hf := finalizeCommands_fields o
    refine ⟨?_, ?_, ?_, ?_⟩
    · rw [hf.1]
      have h1 := hs.1
      unfold MAX_RAG_ATTEMPTS at h1 ⊢
      omega
    · rw [hf.2.1]
      have h1 := hs.2.1
      unfold MAX_RAG_ATTEMPTS at h1 ⊢
      omega
    · rw [hf.2.2.1, hf.2.2.2.1]
      exact hs.2.2.1
    · rw [hf.2.2.1, hf.2.2.2.2.1, hf.2.2.2.2.2.2.1]
      cases hfx : o.finalText with
      | none => simp [finalizeCommands, hfx]
      | some t =>
        by_cases htr : trimIsEmpty t = true
        · simp [finalizeCommands, hfx, htr]
        · simp [finalizeCommands, hfx, htr]

/-- C10: the returned command vector is at most one Tts command
followed by the tool commands, which are exactly the Hangup/Refer
commands of the tool invocations in encounter order; the Tts command is
present iff the final text is non-empty after trimming, and exactly in
that case an assistant message with that text is appended to the
conversation history. -/
theorem llm_commands_shape (parse : String → Option StructuredResponse)
    (provider : Nat → List ChatMessage → Except Unit String)
    (retriever : String → Except Unit String)
    (history : List ChatMessage) (initial : String) (out : InterpretOut)
    (h : interpretResponse parse provider retriever history initial = .ok out) :
    ∃ t, out.finalText = Option.some t
      ∧ out.commands = (if trimIsEmpty t then []
          else [createTtsCommand t out.waitInputTimeout]) ++ out.toolCmds
      ∧ out.toolCmds = out.toolsSeen.filterMap toolToCmd
      ∧ (∀ c ∈ out.toolCmds,
          (∃ r i, c = Command.hangup r i) ∨ (∃ a b o2, c = Command.refer a b o2))
      ∧ out.assistantAppended = !trimIsEmpty t
      ∧ out.history = (if trimIsEmpty t then out.historyPre
          else out.historyPre ++ [⟨"assistant", t⟩]) := by
  rw [interpretResponse] at h
  cases hl : interpretLoop parse provider retriever (MAX_RAG_ATTEMPTS - 1) 0 0 history
      [] [] Option.none initial with
  | error e => rw [hl] at h; simp [Except.map] at h
  | ok o =>
    rw [hl] at h
    simp only [Except.map] at h
    cases h
    have hs := interpretLoop_spec parse provider retriever (MAX_RAG_ATTEMPTS - 1) 0 0
      history [] [] Option.none initial o hl
    have hfm : o.toolCmds = o.toolsSeen.filterMap toolToCmd := hs.2.2.2 (by simp)
    have hmem : ∀ c ∈ o.toolCmds,
        (∃ r i, c = Command.hangup r i) ∨ (∃ a b o2, c = Command.refer a b o2) := by
      intro c hc
      rw [hfm] at hc
      obtain ⟨t, _, ht⟩ := List.mem_filterMap.mp hc
      cases t with
      | hangup r i =>
        simp only [toolToCmd, Option.some.injEq] at ht
        exact Or.inl ⟨r, i, ht.symm⟩
      | refer a b o2 =>
        simp only [toolToCmd, Option.some.injEq] at ht
        exact Or.inr ⟨a, b, o2, ht.symm⟩
      | rag q s => simp [toolToCmd] at ht
    obtain ⟨t, ht⟩ : ∃ t, o.finalText = Option.some t := by
      rw [hs.2.2.1]; exact ⟨_, rfl⟩
    by_cases htr : trimIsEmpty t = true
    · refine ⟨t, ?_, ?_, ?_, ?_, ?_, ?_⟩
      · simp [finalizeCommands, ht, htr]
      · simp [finalizeCommands, ht, htr]
      · simp [finalizeCommands, ht, htr, hfm]
      · intro c hc
        refine hmem c ?_
        simpa [finalizeCommands, ht, htr] using hc
      · simp [finalizeCommands, ht, htr]
      · simp [finalizeCommands, ht, htr]
    · have hfalse : trimIsEmpty t = false := by simpa using htr
      refine ⟨t, ?_, ?_, ?_, ?_, ?_, ?_⟩
      · simp [finalizeCommands, ht, hfalse]
      · simp [finalizeCommands, ht, hfalse]
      · simp [finalizeCommands, ht, hfalse, hfm]
      · intro c hc
        refine hmem c ?_
        simpa [finalizeCommands, ht, hfalse] using hc
      · simp [finalizeCommands, ht, hfalse]
      · simp [finalizeCommands, ht, hfalse]

/-- The raw response of a provider that always asks for RAG (the
test_rag_iteration_limit scenario). -/
def ragRaw : String := "rag-instruction"

/-- A parse oracle recognizing exactly that response as a lone Rag
tool invocation. -/
def ragParse : String → Option StructuredResponse := fun s =>
  if s = ragRaw then
    Option.some ⟨Option.none, Option.none, Option.some [.rag "endless" Option.none]⟩
  else Option.none

/-- A provider that returns the RAG instruction on every call. -/
def ragProvider : Nat → List ChatMessage → Except Unit String := fun _ _ => .ok ragRaw

/-- A retriever echoing its query. -/
def ragRetriever : String → Except Unit String := fun q => .ok ("retrieved " ++ q)

/-- The (successful) result of interpret_response under the always-RAG
provider. -/
def ragOut : InterpretOut :=
  match interpretResponse ragParse ragProvider ragRetriever [] ragRaw with
  | .ok o => o
  | .error _ =>
    ⟨[], [], [], Option.none, "", 0, 0, Option.none, [], [], false⟩

/-- C6 witness: under the always-RAG provider the loop runs exactly 3
attempts and 2 re-queries and returns the Tts of the last raw
response. -/
theorem llm_interpret_rag_limit_witness :
    interpretResponse ragParse ragProvider ragRetriever [] ragRaw = .ok ragOut
    ∧ ragOut.attempts = 3
    ∧ ragOut.providerCalls = 2
    ∧ ragOut.commands = [createTtsCommand ragRaw Option.none]
    ∧ (ragOut.attempts ≤ MAX_RAG_ATTEMPTS
        ∧ ragOut.providerCalls ≤ MAX_RAG_ATTEMPTS - 1
        ∧ ragOut.finalText = Option.some (match ragParse ragOut.lastRaw with
            | Option.some st => st.text.getD ragOut.lastRaw
            | Option.none => ragOut.lastRaw)
        ∧ ragOut.commands = (match ragOut.finalText with
            | Option.some t =>
              if trimIsEmpty t then ragOut.toolCmds
              else createTtsCommand t ragOut.waitInputTimeout :: ragOut.toolCmds
            | Option.none => ragOut.toolCmds)) :=
  ⟨by rfl, by decide, by decide, by decide,
   llm_interpret_rag_limit ragParse ragProvider ragRetriever [] ragRaw ragOut (by rfl)⟩

/-- The raw response of the handler_applies_tool_instructions test:
text "Goodbye", waitInputTimeout 15000, a hangup and a refer tool. -/
def toolRaw : String := "tool-instruction"

/-- A parse oracle recognizing that response. -/
def toolParse : String → Option StructuredResponse := fun s =>
  if s = toolRaw then
    Option.some ⟨Option.some "Goodbye", Option.some 15000,
      Option.some [.hangup (Option.some "done") (Option.some "agent"),
        .refer "sip:bot" "sip:lead" Option.none]⟩
  else Option.none

/-- A provider that is never consulted in this scenario. -/
def failProvider : Nat → List ChatMessage → Except Unit String := fun _ _ => .error ()

/-- The no-op retriever. -/
def noopRetriever : String → Except Unit String := fun _ => .ok ""

/-- The (successful) result of interpret_response on the tool
response. -/
def toolOut : InterpretOut :=
  match interpretResponse toolParse failProvider noopRetriever [] toolRaw with
  | .ok o => o
  | .error _ =>
    ⟨[], [], [], Option.none, "", 0, 0, Option.none, [], [], false⟩

/-- C10 witness: one Tts followed by the Hangup and Refer commands in
response order, with the assistant message appended. -/
theorem llm_commands_shape_witness :
    interpretResponse toolParse failProvider noopRetriever [] toolRaw = .ok toolOut
    ∧ toolOut.commands
        = [createTtsCommand "Goodbye" (Option.some 15000),
           Command.hangup (Option.some "done") (Option.some "agent"),
           Command.refer "sip:bot" "sip:lead" Option.none]
    ∧ toolOut.assistantAppended = true
    ∧ toolOut.history = [⟨"assistant", "Goodbye"⟩]
    ∧ (∃ t, toolOut.finalText = Option.some t
        ∧ toolOut.commands = (if trimIsEmpty t then []
            else [createTtsCommand t toolOut.waitInputTimeout]) ++ toolOut.toolCmds
        ∧ toolOut.toolCmds = toolOut.toolsSeen.filterMap toolToCmd
        ∧ (∀ c ∈ toolOut.toolCmds,
            (∃ r i, c = Command.hangup r i) ∨ (∃ a b o2, c = Command.refer a b o2))
        ∧ toolOut.assistantAppended = !trimIsEmpty t
        ∧ toolOut.history = (if trimIsEmpty t then toolOut.historyPre
            else toolOut.historyPre ++ [⟨"assistant", t⟩])) :=
  ⟨by rfl, by decide, by decide, by decide,
   llm_commands_shape toolParse failProvider noopRetriever [] toolRaw toolOut (by rfl)⟩

/-- Modelled from the spec: SipOption carries the optional hangup headers
(name/value pairs; only this field matters here). -/
structure SipOption where
  hangupHeaders : Option (List (String × String))

/-- ASCII whitespace trim on a character list (the template variable name
inside a placeholder is trimmed before lookup). -/
def asciiTrimChars (cs : List Char) : List Char :=
  ((cs.dropWhile isWsChar).reverse.dropWhile isWsChar).reverse

/-- Scan up to the closing brace pair of a template placeholder, returning
the inner characters and the remainder. -/
def takeUntilCloseBr : List Char → Option (List Char × List Char)
  | [] => Option.none
  | c :: rest =>
    if c = '\x7d' then
      match rest with
      | c2 :: rest2 =>
        if c2 = '\x7d' then Option.some ([], rest2)
        else (takeUntilCloseBr rest).map (fun p => (c :: p.1, p.2))
      | [] => Option.none
    else (takeUntilCloseBr rest).map (fun p => (c :: p.1, p.2))

/-- Modelled from the spec: one rendering pass over the template characters;
a double-brace placeholder is replaced by the looked-up value of its trimmed
inner name when the lookup succeeds, otherwise kept verbatim.  The fuel is
the character count, which bounds the number of scanning steps. -/
def renderCharsF (lookup : String → Option String) : Nat → List Char → List Char
  | 0, cs => cs
  | _ + 1, [] => []
  | fuel + 1, c :: rest =>
    if c = '\x7b' then
      match rest with
      | c2 :: rest2 =>
        if c2 = '\x7b' then
          match takeUntilCloseBr rest2 with
          | Option.some (inner, rest3) =>
            match lookup (String.mk (asciiTrimChars inner)) with
            | Option.some v => v.data ++ renderCharsF lookup fuel rest3
            | Option.none =>
              c :: c2 :: (inner ++ '\x7d' :: '\x7d' :: renderCharsF lookup fuel rest3)
          | Option.none => c :: renderCharsF lookup fuel rest
        else c :: renderCharsF lookup fuel rest
      | [] => [c]
    else c :: renderCharsF lookup fuel rest

/-- Modelled from the spec: render a header-value template, substituting
each double-brace placeholder from the lookup environment. -/
def renderTemplate (lookup : String → Option String) (s : String) : String :=
  String.mk (renderCharsF lookup s.data.length s.data)

/-- Substring test on character lists. -/
def isPrefixCharsB : List Char → List Char → Bool
  | [], _ => true
  | _ :: _, [] => false
  | p :: ps, c :: cs => p == c && isPrefixCharsB ps cs

/-- Whether the needle occurs in the haystack. -/
def containsCharsB (needle : List Char) : List Char → Bool
  | [] => isPrefixCharsB needle []
  | c :: cs => isPrefixCharsB needle (c :: cs) || containsCharsB needle cs

/-- Modelled from the spec: detection of the auto-hangup marker in the LLM
response text. -/
def containsHangupTag (s : String) : Bool :=
  containsCharsB "<hangup/>".data s.data

/-- HashMap::insert on the assoc-list model of extras: the previous binding
of the key, if any, is replaced. -/
def insertKV (l : List (String × Json)) (k : String) (v : Json) : List (String × Json) :=
  l.filter (fun kv => !(kv.1 == k)) ++ [(k, v)]

/-- Modelled from the spec: render every configured hangup header value
against the call's extras (string-valued entries substitute; anything else
leaves the placeholder). -/
def renderHeaders (extras : Option (List (String × Json)))
    (headers : List (String × String)) : List (String × String) :=
  headers.map (fun kv =>
    (kv.1, renderTemplate (fun key => (lookupField (extras.getD []) key).bind Json.asStr) kv.2))

/-- Modelled from the spec: the auto-hangup header step of the LLM handler.
When the response contains the hangup marker and a SipOption with hangup
headers is configured, the rendered headers are stored (as a JSON object)
under _hangup_headers in the call's extras; otherwise extras are unchanged. -/
def applyAutoHangupHeaders (response : String) (sip : Option SipOption)
    (extras : Option (List (String × Json))) : Option (List (String × Json)) :=
  if containsHangupTag response then
    match sip with
    | Option.some so =>
      match so.hangupHeaders with
      | Option.some headers =>
        Option.some (insertKV (extras.getD []) "_hangup_headers"
          (Json.obj ((renderHeaders extras headers).map (fun kv => (kv.1, Json.str kv.2)))))
      | Option.none => extras
    | Option.none => extras
  else extras

/-- Inserting a binding makes it the one the lookup finds. -/
theorem lookupField_insertKV (l : List (String × Json)) (k : String) (v : Json) :
    lookupField (insertKV l k v) k = Option.some v := by
  induction l with
  | nil => simp [insertKV, lookupField]
  | cons hd tl ih =>
    by_cases h : hd.1 = k
    · simpa [insertKV, h] using ih
    · simp only [insertKV, List.filter_cons] at ih ⊢
      simp [h, lookupField, ih]

/-- C8: a response containing the hangup marker stores the rendered headers
under _hangup_headers when a SipOption with hangup headers is configured,
and leaves extras unchanged when no SipOption is configured. -/
theorem autohangup_headers_in_extras (response : String)
    (hresp : containsHangupTag response = true)
    (so : SipOption) (headers : List (String × String))
    (hh : so.hangupHeaders = Option.some headers)
    (extras : Option (List (String × Json))) :
    lookupField ((applyAutoHangupHeaders response (Option.some so) extras).getD [])
        "_hangup_headers"
      = Option.some (Json.obj ((renderHeaders extras headers).map
          (fun kv => (kv.1, Json.str kv.2))))
    ∧ applyAutoHangupHeaders response Option.none extras = extras := by
  constructor
  · simp only [applyAutoHangupHeaders, hresp, if_true, hh, Option.getD_some]
    exact lookupField_insertKV _ _ _
  · unfold applyAutoHangupHeaders
    split <;> rfl

def hdrsW : List (String × String) := [("X-Test-Header", "test-value"), ("X-Job-Id", "job-123")]

/-- C8 witness. -/
theorem autohangup_headers_in_extras_witness :
    containsHangupTag "Goodbye <hangup/>" = true
    ∧ (SipOption.mk (Option.some hdrsW)).hangupHeaders = Option.some hdrsW
    ∧ lookupField ((applyAutoHangupHeaders "Goodbye <hangup/>"
          (Option.some (SipOption.mk (Option.some hdrsW))) Option.none).getD [])
          "_hangup_headers"
        = Option.some (Json.obj ((renderHeaders Option.none hdrsW).map
            (fun kv => (kv.1, Json.str kv.2))))
    ∧ applyAutoHangupHeaders "Goodbye <hangup/>" Option.none Option.none = Option.none
    ∧ renderHeaders Option.none hdrsW = hdrsW
    ∧ renderHeaders (Option.some [("call_result", Json.str "success")])
        [("X-Call-Result", "\x7b\x7b call_result \x7d\x7d")]
        = [("X-Call-Result", "success")] := by
  refine ⟨by decide, by rfl, ?_, ?_, by decide, by decide⟩
  · exact (autohangup_headers_in_extras "Goodbye <hangup/>" (by decide)
      (SipOption.mk (Option.some hdrsW)) hdrsW (by rfl) Option.none).1
  · exact (autohangup_headers_in_extras "Goodbye <hangup/>" (by decide)
      (SipOption.mk (Option.some hdrsW)) hdrsW (by rfl) Option.none).2

end ActiveCallVerif
